import Mathlib

/-!
Verification of the content-extraction pipeline of the `latest_crawl` repository
(`extractors/base.py`, `extractors/admission.py`, `extractors/placement.py`).

The Python code is shallowly embedded: Python strings become `List Char`,
Python numbers become `ℤ` and the canonical fraction type `PyRat` (Python
floats are exact decimals here), Python's heterogeneous values become the
inductive `PyVal`, Python dicts become insertion-ordered association lists with
update-in-place semantics, and the `re` module calls become an executable
backtracking matcher (`matGo`/`reSearch`/`reFinditer`) over a regex AST that
mirrors the pattern literals of the source.  All searches in the embedded code
use `re.IGNORECASE`, so literal characters match case-insensitively.
-/

set_option maxHeartbeats 2000000
set_option maxRecDepth 8000

namespace Crawl

/-! ### Python strings -/

/-- A Python string, as its list of characters. -/
abbrev PyStr := List Char

/-- Lower-casing, as Python `str.lower` on the ASCII texts considered here. -/
def lowerStr (s : PyStr) : PyStr := s.map Char.toLower

/-- Python whitespace characters (the class `\s` and `str.strip`). -/
def isSpaceChar (c : Char) : Bool :=
  c == ' ' || c == '\t' || c == '\n' || c == '\x0d' || c == '\x0b' || c == '\x0c'

/-- A word character for the `\b` assertion (`[A-Za-z0-9_]` on ASCII text). -/
def isWordChar (c : Char) : Bool := c.isAlphanum || c == '_'

/-- Does `s` start with `pat`? -/
def strHasPre : PyStr → PyStr → Bool
  | [], _ => true
  | _ :: _, [] => false
  | a :: as, b :: bs => a == b && strHasPre as bs

/-- Python's substring test `pat in s` (case-sensitive). -/
def containsSub (pat : PyStr) : PyStr → Bool
  | [] => pat.isEmpty
  | c :: cs => strHasPre pat (c :: cs) || containsSub pat cs

/-- Python `str.strip()`: drop whitespace from both ends. -/
def stripStr (s : PyStr) : PyStr :=
  ((s.dropWhile (fun c => isSpaceChar c)).reverse.dropWhile (fun c => isSpaceChar c)).reverse

/-- Python `str.isdigit()` on ASCII text: non-empty and all digits. -/
def isDigitStr (s : PyStr) : Bool := !s.isEmpty && s.all Char.isDigit

/-- Python `str.isspace()`: non-empty and all whitespace. -/
def isSpaceStr (s : PyStr) : Bool := !s.isEmpty && s.all (fun c => isSpaceChar c)

/-- Python `sep.join(parts)`. -/
def joinStr (sep : PyStr) : List PyStr → PyStr
  | [] => []
  | [p] => p
  | p :: rest => p ++ sep ++ joinStr sep rest

/-- Split a string at every character belonging to `cs` (Python
`re.split` over a single character class): separators are dropped and empty
pieces are kept. -/
def splitOnSet (cs : List Char) : PyStr → List PyStr
  | [] => [[]]
  | c :: rest =>
    if cs.contains c then
      [] :: splitOnSet cs rest
    else
      match splitOnSet cs rest with
      | [] => [[c]]
      | p :: ps => (c :: p) :: ps

/-- Decimal digit characters. -/
def digitChars : List Char := ['0', '1', '2', '3', '4', '5', '6', '7', '8', '9']

/-- Decimal rendering of a natural number (the digits of `f"{n}"`). -/
def natDigits (n : Nat) : PyStr :=
  if h : n < 10 then [Char.ofNat (48 + n)]
  else natDigits (n / 10) ++ [Char.ofNat (48 + n % 10)]
decreasing_by exact Nat.div_lt_self (Nat.lt_of_lt_of_le (by decide) (Nat.not_lt.mp h)) (by decide)

/-! ### Rational numbers with kernel-reducible arithmetic

Python floats are modelled as exact rationals.  Mathlib's `Rat` operations do
not reduce inside the kernel, so the embedding carries its own canonical
fraction type with purely structural arithmetic (fuelled Euclidean gcd): every
value built through `mkRat'` is reduced with a positive denominator, hence
structural equality coincides with semantic equality. -/

/-- Fuelled Euclidean gcd (the fuel `m + 1` always suffices). -/
def gcdF : Nat → Nat → Nat → Nat
  | 0, _, n => n
  | _ + 1, 0, n => n
  | f + 1, m, n => gcdF f (n % m) m

/-- Greatest common divisor, kernel-reducible. -/
def natGcd (m n : Nat) : Nat := gcdF (m + 1) m n

/-- A canonical fraction: reduced, denominator positive. -/
structure PyRat where
  num : ℤ
  den : ℕ
deriving DecidableEq

/-- Canonicalizing constructor (callers never pass a zero denominator). -/
def mkRat' (n d : ℤ) : PyRat :=
  if d == 0 then ⟨0, 0⟩
  else
    let n2 := if d < 0 then -n else n
    let d2 := (if d < 0 then -d else d).toNat
    let g := natGcd n2.natAbs d2
    ⟨n2 / (g : ℤ), d2 / g⟩

/-- The integer `n` as a fraction. -/
def pyInt (n : ℤ) : PyRat := ⟨n, 1⟩

/-- Addition. -/
def PyRat.add (a b : PyRat) : PyRat :=
  mkRat' (a.num * (b.den : ℤ) + b.num * (a.den : ℤ)) ((a.den : ℤ) * (b.den : ℤ))

/-- Negation (canonical form is preserved). -/
def PyRat.neg (a : PyRat) : PyRat := ⟨-a.num, a.den⟩

/-- Subtraction. -/
def PyRat.sub (a b : PyRat) : PyRat := a.add b.neg

/-- Multiplication. -/
def PyRat.mul (a b : PyRat) : PyRat := mkRat' (a.num * b.num) ((a.den : ℤ) * (b.den : ℤ))

/-- Division (callers guard against a zero divisor as the Python code does). -/
def PyRat.div (a b : PyRat) : PyRat := mkRat' (a.num * (b.den : ℤ)) ((a.den : ℤ) * b.num)

/-- Strict comparison by cross-multiplication (denominators are positive). -/
def PyRat.blt (a b : PyRat) : Bool := a.num * (b.den : ℤ) < b.num * (a.den : ℤ)

/-- Floor of a fraction (`Int.fdiv` floors for a positive denominator). -/
def PyRat.floor (a : PyRat) : ℤ := a.num.fdiv (a.den : ℤ)

/-- Zero test (canonical form makes this exact). -/
def PyRat.isZero (a : PyRat) : Bool := a.num == 0

/-- The power `10 ^ k`, structurally. -/
def pow10 : Nat → Nat
  | 0 => 1
  | n + 1 => 10 * pow10 n

/-! ### Numeric coercion (Python `float()` / `int()` on the strings that occur) -/

/-- Value of a digit string. -/
def natOfDigits (s : PyStr) : Nat := s.foldl (fun n c => n * 10 + (c.toNat - 48)) 0

/-- Python `float(s)` on the decimal strings produced by the extraction
patterns (optional sign, digits with at most one dot; scientific forms never
occur in those strings and are not modelled).  `none` models `ValueError`. -/
def parseFloat (s : PyStr) : Option PyRat :=
  let t := stripStr s
  let sign : ℤ := if t.head? == some '-' then -1 else 1
  let t2 := if t.head? == some '-' || t.head? == some '+' then t.tail else t
  let ip := t2.takeWhile Char.isDigit
  let rest := t2.drop ip.length
  match rest with
  | [] => if ip.isEmpty then none else some (pyInt (sign * natOfDigits ip))
  | '.' :: fr =>
    if fr.all Char.isDigit && !(ip.isEmpty && fr.isEmpty) then
      some (mkRat' (sign * ((natOfDigits ip * pow10 fr.length + natOfDigits fr : ℕ) : ℤ))
        (pow10 fr.length))
    else none
  | _ => none

/-- Python `int(s)`: optional sign and a non-empty run of digits (no dot). -/
def parseInt (s : PyStr) : Option ℤ :=
  let t := stripStr s
  let (sign, t2) : ℤ × PyStr :=
    match t with
    | '-' :: r => (-1, r)
    | '+' :: r => (1, r)
    | _ => (1, t)
  if isDigitStr t2 then some (sign * natOfDigits t2) else none

/-- Round to the nearest integer, ties to even (Python's `round`). -/
def roundHalfEven (q : PyRat) : ℤ :=
  let f := q.floor
  let r := q.sub (pyInt f)
  if r.blt ⟨1, 2⟩ then f
  else if (PyRat.mk 1 2).blt r then f + 1
  else if f % 2 = 0 then f else f + 1

/-- Python `round(q, 2)`. -/
def round2 (q : PyRat) : PyRat := mkRat' (roundHalfEven (q.mul (pyInt 100))) 100

/-! ### Python values and dicts -/

/-- A Python runtime value as it occurs in the extraction records. -/
inductive PyVal where
  | none
  | bool (b : Bool)
  | int (n : ℤ)
  | float (q : PyRat)
  | str (s : PyStr)
  | list (l : List PyVal)
  | dict (l : List (PyStr × PyVal))

/-- Python truthiness of a value. -/
def truthy : PyVal → Bool
  | .none => false
  | .bool b => b
  | .int n => n != 0
  | .float q => !q.isZero
  | .str s => !s.isEmpty
  | .list l => !l.isEmpty
  | .dict l => !l.isEmpty

/-- Python `isinstance(v, (int, float))`. -/
def isNum : PyVal → Bool
  | .int _ => true
  | .float _ => true
  | _ => false

/-- Dict assignment `d[k] = v`: update in place, or append a fresh key. -/
def dictSet {α : Type} (d : List (PyStr × α)) (k : PyStr) (v : α) : List (PyStr × α) :=
  match d with
  | [] => [(k, v)]
  | (k2, v2) :: rest => if k2 == k then (k2, v) :: rest else (k2, v2) :: dictSet rest k v

/-- Dict lookup `d[k]` / `d.get(k)`. -/
def dictGet? {α : Type} : List (PyStr × α) → PyStr → Option α
  | [], _ => Option.none
  | (k2, v) :: rest, k => if k2 == k then some v else dictGet? rest k

/-- Python `k in d`. -/
def dictHasKey {α : Type} (d : List (PyStr × α)) (k : PyStr) : Bool :=
  (dictGet? d k).isSome

/-- The keys of a dict, in insertion order. -/
def dictKeys {α : Type} (d : List (PyStr × α)) : List PyStr := d.map Prod.fst

/-- Python `list(dict.fromkeys(xs))`: deduplicate keeping first occurrences. -/
def dedupFirst {α : Type} [BEq α] : List α → List α → List α
  | _, [] => []
  | seen, x :: xs =>
    if seen.contains x then dedupFirst seen xs else x :: dedupFirst (seen ++ [x]) xs

/-! ### Regular expressions

An AST for the pattern dialect used by the source, and a backtracking matcher
with Python `re` semantics: leftmost match, alternation tried left to right,
greedy quantifiers try longer first, lazy ones shorter first, and a repetition
stops when an iteration makes no progress.  Literal characters compare
case-insensitively, since every embedded search passes `re.IGNORECASE`. -/

/-- Character classes occurring in the source patterns. -/
inductive CC where
  | digit
  | space
  | dotAny
  | alphaAZ
  | spaceOr (extra : Char)
  | inSet (cs : List Char)
  | notInSet (cs : List Char)
deriving DecidableEq

/-- Does a character match a class? -/
def matCC : CC → Char → Bool
  | .digit, c => c.isDigit
  | .space, c => isSpaceChar c
  | .dotAny, c => c != '\n'
  | .alphaAZ, c => 'a' ≤ c.toLower && c.toLower ≤ 'z'
  | .spaceOr extra, c => c == extra || isSpaceChar c
  | .inSet cs, c => cs.contains c
  | .notInSet cs, c => !cs.contains c

/-- Regex AST.  `grp` is a numbered capturing group, `eos` is `$`, `wb` is
`\b`; `star`/`opt` are greedy, `starL` is the lazy `*?`. -/
inductive RE where
  | eps
  | lit (c : Char)
  | cls (cc : CC)
  | seq (a b : RE)
  | alt (a b : RE)
  | opt (a : RE)
  | star (a : RE)
  | starL (a : RE)
  | grp (n : Nat) (a : RE)
  | eos
  | wb
deriving DecidableEq

/-- Captured groups: later entries override earlier ones for the same index. -/
abbrev Caps := List (Nat × PyStr)

/-- Structural size of a regex, used to pick a sufficient fuel. -/
def reSize : RE → Nat
  | .eps => 1
  | .lit _ => 1
  | .cls _ => 1
  | .seq a b => reSize a + reSize b + 1
  | .alt a b => reSize a + reSize b + 1
  | .opt a => reSize a + 1
  | .star a => reSize a + 1
  | .starL a => reSize a + 1
  | .grp _ a => reSize a + 1
  | .eos => 1
  | .wb => 1

/-- The backtracking matcher, in continuation-passing style.  `prev` is the
character just before the current position (for `\b`); the fuel, decremented
on every call, bounds the recursion depth and is chosen large enough by
`searchFromIdx` that it is never exhausted on the patterns of this
development.  A repetition stops when an iteration makes no progress. -/
def matGo : Nat → RE → Option Char → PyStr → Caps →
    (Option Char → PyStr → Caps → Option (PyStr × Caps)) → Option (PyStr × Caps)
  | 0, _, _, _, _, _ => Option.none
  | f + 1, r, prev, s, caps, k =>
    match r with
    | .eps => k prev s caps
    | .lit c =>
      match s with
      | [] => Option.none
      | x :: xs => if x.toLower == c then k (some x) xs caps else Option.none
    | .cls cc =>
      match s with
      | [] => Option.none
      | x :: xs => if matCC cc x then k (some x) xs caps else Option.none
    | .seq a b => matGo f a prev s caps (fun p2 s2 c2 => matGo f b p2 s2 c2 k)
    | .alt a b =>
      match matGo f a prev s caps k with
      | some res => some res
      | Option.none => matGo f b prev s caps k
    | .opt a =>
      match matGo f a prev s caps k with
      | some res => some res
      | Option.none => k prev s caps
    | .star a =>
      match matGo f a prev s caps (fun p2 s2 c2 =>
          if s2.length < s.length then matGo f (.star a) p2 s2 c2 k else Option.none) with
      | some res => some res
      | Option.none => k prev s caps
    | .starL a =>
      match k prev s caps with
      | some res => some res
      | Option.none =>
        matGo f a prev s caps (fun p2 s2 c2 =>
          if s2.length < s.length then matGo f (.starL a) p2 s2 c2 k else Option.none)
    | .grp n a =>
      matGo f a prev s caps (fun p2 s2 c2 =>
        k p2 s2 (c2 ++ [(n, s.take (s.length - s2.length))]))
    | .eos => if s.isEmpty || s == ['\n'] then k prev s caps else Option.none
    | .wb =>
      let l := match prev with | some c => isWordChar c | Option.none => false
      let rside := match s with | c :: _ => isWordChar c | [] => false
      if l != rside then k prev s caps else Option.none

/-- Result of a successful `re.search`: start offset, matched text
(`group(0)`) and captured groups. -/
structure MatchRes where
  pos : Nat
  matched : PyStr
  caps : Caps
deriving DecidableEq

/-- Fuel that is always sufficient for the patterns of this development. -/
def fuelFor (r : RE) (s : PyStr) : Nat := (reSize r + 2) * (s.length + 2) * (s.length + 2)

/-- Try to match at the current position, else slide right (`re.search`).
`pos` is the absolute offset of `s` in the original text. -/
def searchFromIdx (r : RE) : Option Char → PyStr → Nat → Option MatchRes
  | prev, s, pos =>
    match matGo (fuelFor r s) r prev s [] (fun _ rest caps => some (rest, caps)) with
    | some (rest, caps) => some ⟨pos, s.take (s.length - rest.length), caps⟩
    | Option.none =>
      match s with
      | [] => Option.none
      | c :: cs => searchFromIdx r (some c) cs (pos + 1)

/-- Python `re.search(r, s, re.IGNORECASE)`. -/
def reSearch (r : RE) (s : PyStr) : Option MatchRes := searchFromIdx r Option.none s 0

/-- Captured group `n` of a match (last assignment wins). -/
def capOf (m : MatchRes) (n : Nat) : Option PyStr :=
  (m.caps.reverse.find? (fun p => p.1 == n)).map Prod.snd

/-- Python `match.group(n)` for a group that participated in the match. -/
def groupStr (m : MatchRes) (n : Nat) : PyStr := (capOf m n).getD []

/-- All matches, scanning left to right from the end of the previous match
(`re.finditer`); an empty match advances by one character. -/
def finditFrom (r : RE) (prev : Option Char) (s : PyStr) (pos : Nat) : Nat → List MatchRes
  | 0 => []
  | f + 1 =>
    match searchFromIdx r prev s pos with
    | Option.none => []
    | some m =>
      let rel := m.pos - pos
      if m.matched.isEmpty then
        finditFrom r ((s.drop rel).head?) (s.drop (rel + 1)) (m.pos + 1) f |>.cons m
      else
        finditFrom r m.matched.getLast? (s.drop (rel + m.matched.length))
          (m.pos + m.matched.length) f |>.cons m

/-- Python `re.finditer(r, s, re.IGNORECASE)`. -/
def reFinditer (r : RE) (s : PyStr) : List MatchRes :=
  finditFrom r Option.none s 0 (s.length + 1)

/-- Whether `re.search` succeeds at all. -/
def reTest (r : RE) (s : PyStr) : Bool := (reSearch r s).isSome

/-! #### Pattern-building helpers -/

/-- Sequence a list of regexes. -/
def sqList : List RE → RE
  | [] => .eps
  | [r] => r
  | r :: rest => .seq r (sqList rest)

/-- Alternation of a list, tried left to right. -/
def altList : List RE → RE
  | [] => .eps
  | [r] => r
  | r :: rest => .alt r (altList rest)

/-- A literal word, matched case-insensitively. -/
def litStr (s : String) : RE := sqList (s.data.map (fun c => RE.lit c.toLower))

/-- Alternation of literal words. -/
def altStrs (ss : List String) : RE := altList (ss.map litStr)

/-- Greedy `{0,n}` repetition, encoded with nested optionals. -/
def repUpTo : Nat → RE → RE
  | 0, _ => .eps
  | n + 1, a => .opt (.seq a (repUpTo n a))

/-- Greedy `{1,n}` repetition. -/
def rep1To (n : Nat) (a : RE) : RE := .seq a (repUpTo (n - 1) a)

/-- Greedy `+`. -/
def rePlus (a : RE) : RE := .seq a (.star a)

/-- Lazy `+?`. -/
def rePlusL (a : RE) : RE := .seq a (.starL a)

/-- The class `\d`. -/
def dCls : RE := .cls .digit

/-- The fragment `\s+`. -/
def wsP : RE := rePlus (.cls .space)

/-- The fragment `\s*`. -/
def wsM : RE := .star (.cls .space)

/-- Python `value.replace(',', '')`. -/
def stripCommas (s : PyStr) : PyStr := s.filter (fun c => c != ',')

/-- Python `re.sub(r'[^\d.]', '', s)` (also used for `[^0-9.]`). -/
def keepDigitsDot (s : PyStr) : PyStr := s.filter (fun c => c.isDigit || c == '.')

/-- The capture `(\d+(?:\.\d+)?)`. -/
def numPlain : RE := .grp 1 (.seq (rePlus dCls) (.opt (.seq (.lit '.') (rePlus dCls))))

/-- The capture `(\d+(?:,\d+)*(?:\.\d+)?)`. -/
def numComma : RE := .grp 1 (sqList [rePlus dCls, .star (.seq (.lit ',') (rePlus dCls)),
  .opt (.seq (.lit '.') (rePlus dCls))])

/-- The capture `(\d+)`. -/
def numInt : RE := .grp 1 (rePlus dCls)

/-- The fragment `(?:Rs\.?|INR|₹)?`. -/
def curOpt : RE := .opt (altList [.seq (litStr "Rs") (.opt (.lit '.')), litStr "INR", litStr "₹"])

/-- The fragment `(?:\s+is|\s*:)?`. -/
def isOrColonOpt : RE := .opt (altList [.seq wsP (litStr "is"), .seq wsM (.lit ':')])

/-- The fragment `(?:\s+of|\s*:)?`. -/
def ofOrColonOpt : RE := .opt (altList [.seq wsP (litStr "of"), .seq wsM (.lit ':')])

/-- The fragment `[:\s]+`. -/
def colonSpaceP : RE := rePlus (.cls (.spaceOr ':'))

/-! ### Table normalizer (`BaseExtractor.extract_tables`)

The BeautifulSoup DOM walk is modelled by an `HtmlTable` value: the list of
`th` texts inside a `thead` element (if one exists), and every `tr` of the
table in document order, each a list of cells tagged as `th` or `td` with
their stripped text.  Everything from header derivation on is the code of
`extract_tables` itself. -/

/-- A table cell: `true` for a `th` tag, `false` for a `td` tag. -/
abbrev HtmlCell := Bool × PyStr

/-- One `tr` element: its cells in document order. -/
abbrev HtmlRow := List HtmlCell

/-- One `table` element of the parsed document. -/
structure HtmlTable where
  theadThs : Option (List PyStr)
  trs : List HtmlRow

/-- Texts of the `th` cells of a row. -/
def thTexts (r : HtmlRow) : List PyStr := (r.filter (fun c => c.1)).map Prod.snd

/-- Texts of the `td` cells of a row. -/
def tdTexts (r : HtmlRow) : List PyStr := (r.filter (fun c => !c.1)).map Prod.snd

/-- Texts of all cells of a row (`find_all(['td', 'th'])` order). -/
def allCellTexts (r : HtmlRow) : List PyStr := r.map Prod.snd

/-- Header derivation of `extract_tables`: `thead` `th`s if non-empty, else the
first row's `th`s if non-empty, else the first row's `td`s. -/
def deriveHeaders (t : HtmlTable) : List PyStr :=
  let fromThead : List PyStr :=
    match t.theadThs with
    | some ths => ths
    | Option.none => []
  if !fromThead.isEmpty then fromThead
  else
    match t.trs.head? with
    | Option.none => []
    | some fr =>
      let ths := thTexts fr
      if !ths.isEmpty then ths else tdTexts fr

/-- Data rows: all `tr`s (dropping the first when headers were found), keeping
rows that have at least one cell. -/
def dataRows (t : HtmlTable) (headers : List PyStr) : List (List PyStr) :=
  let src := if !headers.isEmpty then t.trs.drop 1 else t.trs
  src.filterMap (fun r =>
    let cells := allCellTexts r
    if cells.isEmpty then Option.none else some cells)

/-- The key used for cell `i` of a row: the `i`-th header if it exists, else
the synthetic `f"column_{i+1}"`. -/
def keyFor (hdrs : List PyStr) (i : Nat) : PyStr :=
  match hdrs[i]? with
  | some h => h
  | Option.none => "column_".data ++ natDigits (i + 1)

/-- Build the dictionary form of one row, cell by cell. -/
def rowDictGo (hdrs : List PyStr) (i : Nat) (acc : List (PyStr × PyStr)) :
    List PyStr → List (PyStr × PyStr)
  | [] => acc
  | c :: cs => rowDictGo hdrs (i + 1) (dictSet acc (keyFor hdrs i) c) cs

/-- The dictionary form of a data row (`row_dict` of `extract_tables`). -/
def rowDict (hdrs : List PyStr) (cells : List PyStr) : List (PyStr × PyStr) :=
  rowDictGo hdrs 0 [] cells

/-- A normalized table as the extractors receive it. -/
structure ExtractedTable where
  headers : List PyStr
  rows : List (List (PyStr × PyStr))
  rawRows : List (List PyStr)
deriving DecidableEq

/-- Structure one parsed table, or drop it when it has no data rows. -/
def buildTable (t : HtmlTable) : Option ExtractedTable :=
  if !(deriveHeaders t).isEmpty && !(dataRows t (deriveHeaders t)).isEmpty then
    some ⟨deriveHeaders t,
      (dataRows t (deriveHeaders t)).map (rowDict (deriveHeaders t)),
      dataRows t (deriveHeaders t)⟩
  else if !(dataRows t (deriveHeaders t)).isEmpty then
    some ⟨[], [], dataRows t (deriveHeaders t)⟩
  else Option.none

/-- The body of `extract_tables` after parsing. -/
def extractTablesOk (doc : List HtmlTable) : List ExtractedTable :=
  doc.filterMap buildTable

/-- Source `extract_tables`: the surrounding `try`/`except` turns any parse failure
into an empty table list. -/
def extract_tables (res : Except Unit (List HtmlTable)) : List ExtractedTable :=
  match res with
  | .error _ => []
  | .ok doc => extractTablesOk doc

/-! ### Date miner (`BaseExtractor.extract_dates` and `_get_context`) -/

/-- Long month names, in the order of the source pattern. -/
def monthsLong : List String :=
  ["January", "February", "March", "April", "May", "June", "July", "August",
   "September", "October", "November", "December"]

/-- Short month names, in the order of the source pattern. -/
def monthsShort : List String :=
  ["Jan", "Feb", "Mar", "Apr", "May", "Jun", "Jul", "Aug", "Sep", "Oct", "Nov", "Dec"]

/-- The class `[/.-]`. -/
def dateSep : RE := .cls (.inSet ['/', '.', '-'])

/-- The fragment `\d{1,2}`. -/
def d12 : RE := rep1To 2 dCls

/-- The fragment `\d{2,4}`. -/
def d24 : RE := sqList [dCls, dCls, repUpTo 2 dCls]

/-- The fragment `\d{4}`. -/
def d4 : RE := sqList [dCls, dCls, dCls, dCls]

/-- The fragment `(?:st|nd|rd|th)?`. -/
def ordSuf : RE := .opt (altStrs ["st", "nd", "rd", "th"])

/-- The pattern `(\d{1,2})[/.-](\d{1,2})[/.-](\d{2,4})`. -/
def dateP1 : RE := sqList [.grp 1 d12, dateSep, .grp 2 d12, dateSep, .grp 3 d24]

/-- The pattern `(January|...|December)\s+(\d{1,2})(?:st|nd|rd|th)?,?\s+(\d{4})`. -/
def dateP2 : RE := sqList [.grp 1 (altStrs monthsLong), wsP, .grp 2 d12, ordSuf,
  .opt (.lit ','), wsP, .grp 3 d4]

/-- The pattern `(\d{1,2})(?:st|nd|rd|th)?\s+(January|...|December),?\s+(\d{4})`. -/
def dateP3 : RE := sqList [.grp 1 d12, ordSuf, wsP, .grp 2 (altStrs monthsLong),
  .opt (.lit ','), wsP, .grp 3 d4]

/-- The pattern `(\d{1,2})[/.-](Jan|...|Dec)[/.-](\d{2,4})`. -/
def dateP4 : RE := sqList [.grp 1 d12, dateSep, .grp 2 (altStrs monthsShort), dateSep, .grp 3 d24]

/-- The pattern `(Jan|...|Dec)\s+(\d{1,2})(?:st|nd|rd|th)?,?\s+(\d{4})`. -/
def dateP5 : RE := sqList [.grp 1 (altStrs monthsShort), wsP, .grp 2 d12, ordSuf,
  .opt (.lit ','), wsP, .grp 3 d4]

/-- The ordered date patterns of `extract_dates`. -/
def datePatterns : List RE := [dateP1, dateP2, dateP3, dateP4, dateP5]

/-- Source `_get_context`: a symmetric window around a position, with ellipsis
markers at cut boundaries. -/
def getContext (text : PyStr) (position : Nat) (contextSize : Nat) : PyStr :=
  let start := position - contextSize
  let stop := min text.length (position + contextSize)
  let context := (text.drop start).take (stop - start)
  (if start > 0 then "...".data else []) ++ context ++
    (if stop < text.length then "...".data else [])

/-- A date found by `extract_dates`. -/
structure DateMention where
  dateStr : PyStr
  matchGroups : List (Option PyStr)
  position : Nat
  context : PyStr
deriving DecidableEq

/-- Source `extract_dates`: every `finditer` match of every pattern, in pattern
order, each with a ±100-character context window. -/
def extract_dates (text : PyStr) : List DateMention :=
  (datePatterns.map (fun p => (reFinditer p text).map (fun m =>
    ⟨m.matched, [capOf m 1, capOf m 2, capOf m 3], m.pos, getContext text m.pos 100⟩))).flatten

/-! ### Admission extractor (`AdmissionExtractor`) -/

/-- The `dates_deadlines` entry of `admission_keywords`. -/
def datesDeadlinesKw : List PyStr :=
  (["application deadline", "last date", "admission date", "important dates",
    "admission schedule", "last date to apply", "registration deadline"]).map String.data

/-- The `courses` entry of `admission_keywords`. -/
def coursesKw : List String :=
  ["courses offered", "available courses", "programs", "specializations",
   "branches", "disciplines", "degrees", "courses available"]

/-- True when some keyword of `kws` occurs as a substring of `s`. -/
def anyKwIn (kws : List String) (s : PyStr) : Bool :=
  kws.any (fun kw => containsSub kw.data s)

/-- Source `_determine_deadline_type`: first matching keyword group wins. -/
def determineDeadlineType (context : PyStr) : PyStr :=
  let c := lowerStr context
  if anyKwIn ["application", "apply", "registration", "register", "form"] c then
    "application".data
  else if anyKwIn ["entrance", "exam", "test"] c then "entrance_exam".data
  else if anyKwIn ["result", "declaration", "announce", "publication"] c then
    "result_declaration".data
  else if anyKwIn ["interview", "counselling", "counseling", "selection"] c then
    "interview_counselling".data
  else if anyKwIn ["fee", "payment", "deposit"] c then "fee_payment".data
  else if anyKwIn ["class", "start", "commencement", "begin"] c then
    "class_commencement".data
  else "other".data

/-- One entry of `application_deadlines`. -/
structure DeadlineInfo where
  dateStr : PyStr
  context : PyStr
  eventType : PyStr
deriving DecidableEq

/-- Text half of `_extract_application_deadlines`: keep a mined date only when
its lower-cased context window contains a deadline keyword. -/
def deadlinesFromText (text : PyStr) : List DeadlineInfo :=
  (extract_dates text).filterMap (fun d =>
    let context := lowerStr d.context
    if datesDeadlinesKw.any (fun kw => containsSub kw context) then
      some ⟨d.dateStr, d.context, determineDeadlineType context⟩
    else Option.none)

/-- Index of the last header satisfying `p` (the source loop keeps
overwriting the column variable without a `break`). -/
def lastIdxWhere (p : PyStr → Bool) (hs : List PyStr) : Option Nat :=
  ((hs.enum.filter (fun ih => p ih.2)).getLast?).map Prod.fst

/-- Index of the first header satisfying `p` (a loop with a `break`). -/
def firstIdxWhere (p : PyStr → Bool) (hs : List PyStr) : Option Nat :=
  (hs.enum.find? (fun ih => p ih.2)).map Prod.fst

/-- Table half of `_extract_application_deadlines`. -/
def deadlinesFromTables (tables : List ExtractedTable) : List DeadlineInfo :=
  (tables.map (fun t =>
    let headers := t.headers.map lowerStr
    let hasDateHeader := headers.any (fun h => containsSub "date".data h)
    let hasDeadlineHeader :=
      headers.any (fun h => datesDeadlinesKw.any (fun kw => containsSub kw h))
    if hasDateHeader || hasDeadlineHeader then
      let dateCol := lastIdxWhere (fun h => containsSub "date".data h) headers
      let eventCol :=
        lastIdxWhere (anyKwIn ["event", "activity", "particular", "detail"]) headers
      match dateCol with
      | Option.none => []
      | some dc =>
        t.rawRows.filterMap (fun row =>
          if dc < row.length then
            let eventType :=
              match eventCol with
              | some ec =>
                if ec < row.length then determineDeadlineType (lowerStr (row.getD ec []))
                else "application".data
              | Option.none => "application".data
            some (⟨row.getD dc [], joinStr " - ".data row, eventType⟩ : DeadlineInfo)
          else Option.none)
    else [])).flatten

/-- Source `_extract_application_deadlines`: text-mined entries followed by
table-mined entries. -/
def extractApplicationDeadlines (text : PyStr) (tables : List ExtractedTable) :
    List DeadlineInfo :=
  deadlinesFromText text ++ deadlinesFromTables tables

/-- One entry of `courses_offered` (optional keys modelled as options). -/
structure CourseInfo where
  name : PyStr
  duration : Option PyStr
  seats : Option PyStr
  fee : Option PyStr
deriving DecidableEq

/-- Column resolution of `_extract_courses`: an `if`/`elif` chain without a
`break`, so for each role the last matching header wins. -/
def courseCols (headers : List PyStr) : Option Nat × Option Nat × Option Nat × Option Nat :=
  headers.enum.foldl (fun cols ih =>
    let (cc, dc, sc, fc) := cols
    let (i, h) := ih
    if anyKwIn ["course", "program", "degree", "branch"] h then (some i, dc, sc, fc)
    else if anyKwIn ["duration", "years", "period"] h then (cc, some i, sc, fc)
    else if anyKwIn ["seats", "intake", "capacity"] h then (cc, dc, some i, fc)
    else if anyKwIn ["fee", "fees", "tuition"] h then (cc, dc, sc, some i)
    else (cc, dc, sc, fc)) (Option.none, Option.none, Option.none, Option.none)

/-- Table half of `_extract_courses`. -/
def coursesFromTables (tables : List ExtractedTable) : List CourseInfo :=
  (tables.map (fun t =>
    let headers := t.headers.map lowerStr
    if headers.any (anyKwIn ["course", "program", "degree", "branch", "discipline"]) then
      let (cc, dc, sc, fc) := courseCols headers
      match cc with
      | Option.none => []
      | some ci =>
        t.rawRows.filterMap (fun row =>
          if ci < row.length && !(row.getD ci []).isEmpty then
            some (⟨row.getD ci [],
              match dc with
              | some di => if di < row.length then some (row.getD di []) else Option.none
              | Option.none => Option.none,
              match sc with
              | some si => if si < row.length then some (row.getD si []) else Option.none
              | Option.none => Option.none,
              match fc with
              | some fi => if fi < row.length then some (row.getD fi []) else Option.none
              | Option.none => Option.none⟩ : CourseInfo)
          else Option.none)
    else [])).flatten

/-- The fragment `(?:.+?(?:\n|$))`, one line chunk of a labeled section. -/
def lineChunk : RE := .seq (rePlusL (.cls .dotAny)) (.alt (.lit '\n') .eos)

/-- A labeled section `{head}[:\s]+((?:.+?(?:\n|$)){1,n})`. -/
def sectionPatRE (head : RE) (n : Nat) : RE :=
  sqList [head, colonSpaceP, .grp 1 (rep1To n lineChunk)]

/-- The pattern `(?:{keyword})[:\s]+((?:.+?(?:\n|$)){1,n})` with the keyword
inserted literally (its spaces match single spaces). -/
def sectionPat (kw : String) (n : Nat) : RE := sectionPatRE (litStr kw) n

/-- Words separated by `\s+`. -/
def wordsPat (ws : List String) : RE := sqList ((ws.map litStr).intersperse wsP)

/-- Text half of `_extract_courses`: labeled course sections split on common
delimiters, keeping candidates longer than 3 characters that are not digits. -/
def coursesFromText (text : PyStr) : List CourseInfo :=
  let sections := (coursesKw.map (fun kw =>
    (reFinditer (sectionPat kw 10) text).map (fun m => groupStr m 1))).flatten
  (sections.map (fun sect =>
    (splitOnSet [',', ';', '\n', '•', '-'] sect).filterMap (fun cand =>
      let cand := stripStr cand
      if 3 < cand.length && !isDigitStr cand then
        some (⟨cand, Option.none, Option.none, Option.none⟩ : CourseInfo)
      else Option.none))).flatten

/-- Source `_extract_courses`: tables first, text only as a fallback. -/
def extractCourses (text : PyStr) (tables : List ExtractedTable) : List CourseInfo :=
  let courses := coursesFromTables tables
  if courses.isEmpty then coursesFromText text else courses

/-- The `seats_available` result of `_extract_seats`. -/
structure SeatInfo where
  total : PyVal
  categoryWise : List (PyStr × PyVal)

/-- The pattern `total(?:\s+number\s+of)?\s+seats\s*(?:is|are|:)?\s*(\d+)`. -/
def seatsP1 : RE := sqList [litStr "total",
  .opt (sqList [wsP, litStr "number", wsP, litStr "of"]), wsP, litStr "seats", wsM,
  .opt (altList [litStr "is", litStr "are", .lit ':']), wsM, numInt]

/-- The pattern `total\s+intake\s*(?:is|:)?\s*(\d+)`. -/
def seatsP2 : RE := sqList [litStr "total", wsP, litStr "intake", wsM,
  .opt (altList [litStr "is", .lit ':']), wsM, numInt]

/-- The pattern `(?:college|institute)\s+(?:has|with)\s*(\d+)\s+seats`. -/
def seatsP3 : RE := sqList [altStrs ["college", "institute"], wsP, altStrs ["has", "with"],
  wsM, numInt, wsP, litStr "seats"]

/-- The ordered total-seat patterns. -/
def totalSeatPatterns : List RE := [seatsP1, seatsP2, seatsP3]

/-- Text phase of `_extract_seats`: the first pattern that matches and whose
captured group converts with `int` sets the total (a failed conversion is
swallowed by `except: pass` and the loop goes on). -/
def seatsTotalFromText (text : PyStr) : PyVal :=
  let rec loop : List RE → PyVal
    | [] => .none
    | p :: ps =>
      match reSearch p text with
      | some m =>
        match parseInt (groupStr m 1) with
        | some n => .int n
        | Option.none => loop ps
      | Option.none => loop ps
  loop totalSeatPatterns

/-- Table phase of `_extract_seats`: build the category→seats mapping. -/
def seatsCategoryWise (tables : List ExtractedTable) : List (PyStr × PyVal) :=
  tables.foldl (fun cw t =>
    let headers := t.headers.map lowerStr
    if headers.any (anyKwIn ["category", "reservation", "quota"]) then
      let cols := headers.enum.foldl (fun cols ih =>
        let (cc, sc) := cols
        let (i, h) := ih
        if anyKwIn ["category", "reservation", "quota"] h then (some i, sc)
        else if anyKwIn ["seats", "number", "capacity", "count"] h then (cc, some i)
        else (cc, sc)) ((Option.none : Option Nat), (Option.none : Option Nat))
      match cols with
      | (some ci, some si) =>
        t.rawRows.foldl (fun cw2 row =>
          if max ci si < row.length then
            let category := row.getD ci []
            let seats := row.getD si []
            dictSet cw2 category
              (match parseInt seats with
               | some n => .int n
               | Option.none => .str seats)
          else cw2) cw
      | _ => cw
    else cw) []

/-- Python `sum` over the numeric values (starts from the `int` 0). -/
def pyAdd : PyVal → PyVal → PyVal
  | .int a, .int b => .int (a + b)
  | .int a, .float b => .float ((pyInt a).add b)
  | .float a, .int b => .float (a.add (pyInt b))
  | .float a, .float b => .float (a.add b)
  | a, _ => a

/-- Python `sum(values)`. -/
def sumNums (l : List PyVal) : PyVal := l.foldl pyAdd (.int 0)

/-- Source `_extract_seats`: text total, table category mapping, then the derived
total as the sum of the numeric category values when no total was found. -/
def extract_seats (text : PyStr) (tables : List ExtractedTable) : SeatInfo :=
  let total := seatsTotalFromText text
  let cw := seatsCategoryWise tables
  match total with
  | .none =>
    if !cw.isEmpty then
      let numericValues := (cw.map Prod.snd).filter isNum
      if !numericValues.isEmpty then ⟨sumNums numericValues, cw⟩ else ⟨.none, cw⟩
    else ⟨.none, cw⟩
  | v => ⟨v, cw⟩

/-- The `fee_structure` result of `_extract_fees` (the three keyword buckets
are keys that may be absent). -/
structure FeeInfo where
  courseWise : List (PyStr × PyVal)
  paymentSchedule : PyVal
  hostelFee : Option PyVal
  firstYear : Option PyVal
  generalFee : Option PyVal

/-- Fee value of one table cell: cleaned to digits and dots then `float`,
with the raw string kept when the conversion fails. -/
def feeValueOf (cell : PyStr) : PyVal :=
  match parseFloat (keepDigitsDot cell) with
  | some q => .float q
  | Option.none => .str cell

/-- Table phase of `_extract_fees`. -/
def feesFromTables (tables : List ExtractedTable) : FeeInfo :=
  tables.foldl (fun fi t =>
    let headers := t.headers.map lowerStr
    if headers.any (anyKwIn ["fee", "fees", "tuition", "amount"]) then
      let cols := headers.enum.foldl (fun cols ih =>
        let (cc, fc) := cols
        let (i, h) := ih
        if anyKwIn ["course", "program", "branch", "degree"] h then (some i, fc)
        else if anyKwIn ["fee", "fees", "tuition", "amount"] h then (cc, some i)
        else (cc, fc)) ((Option.none : Option Nat), (Option.none : Option Nat))
      match cols.2 with
      | Option.none => fi
      | some fcol =>
        t.rawRows.foldl (fun fi2 row =>
          if fcol < row.length then
            let numericFee := feeValueOf (row.getD fcol [])
            match cols.1 with
            | some ccol =>
              if ccol < row.length then
                { fi2 with courseWise := dictSet fi2.courseWise (row.getD ccol []) numericFee }
              else
                let rowText := lowerStr (joinStr " ".data row)
                if containsSub "hostel".data rowText then { fi2 with hostelFee := some numericFee }
                else if containsSub "first".data rowText || containsSub "1st".data rowText then
                  { fi2 with firstYear := some numericFee }
                else { fi2 with generalFee := some numericFee }
            | Option.none =>
              let rowText := lowerStr (joinStr " ".data row)
              if containsSub "hostel".data rowText then { fi2 with hostelFee := some numericFee }
              else if containsSub "first".data rowText || containsSub "1st".data rowText then
                { fi2 with firstYear := some numericFee }
              else { fi2 with generalFee := some numericFee }
          else fi2) fi
    else fi) ⟨[], .none, Option.none, Option.none, Option.none⟩

/-- The ordered payment-schedule section patterns of `_extract_fees`
(`payment\s+schedule[:\s]+...`, `fee\s+payment\s+schedule[:\s]+...`,
`installment(?:\s+details)?[:\s]+...`). -/
def schedulePatterns : List RE :=
  [sectionPatRE (wordsPat ["payment", "schedule"]) 10,
   sectionPatRE (wordsPat ["fee", "payment", "schedule"]) 10,
   sectionPatRE (.seq (litStr "installment") (.opt (.seq wsP (litStr "details")))) 10]

/-- First matching labeled section, captured span stripped. -/
def firstSection (pats : List RE) (text : PyStr) : PyVal :=
  match pats.findSome? (fun p => reSearch p text) with
  | some m => .str (stripStr (groupStr m 1))
  | Option.none => .none

/-- Source `_extract_fees`. -/
def extract_fees (text : PyStr) (tables : List ExtractedTable) : FeeInfo :=
  { feesFromTables tables with paymentSchedule := firstSection schedulePatterns text }

/-- The `hostel_facilities` result of `_extract_hostel_info`. -/
structure HostelInfo where
  boysHostel : PyVal
  girlsHostel : PyVal
  hostelFee : PyVal

/-- The pattern `boys\s+hostel\s+(?:is\s+)?(available|not available)` (and the
`girls` analogue). -/
def hostelP1 (who : String) : RE := sqList [litStr who, wsP, litStr "hostel", wsP,
  .opt (.seq (litStr "is") wsP), .grp 1 (altStrs ["available", "not\x20available"])]

/-- The pattern `hostel\s+(?:facilities\s+)for\s+boys\s+(?:is\s+)?(available|not available)`. -/
def hostelP2 (who : String) : RE := sqList [litStr "hostel", wsP, litStr "facilities", wsP,
  litStr "for", wsP, litStr who, wsP, .opt (.seq (litStr "is") wsP),
  .grp 1 (altStrs ["available", "not\x20available"])]

/-- The pattern `(separate|dedicated)\s+hostel\s+for\s+boys`. -/
def hostelP3 (who : String) : RE := sqList [.grp 1 (altStrs ["separate", "dedicated"]),
  wsP, litStr "hostel", wsP, litStr "for", wsP, litStr who]

/-- The ordered boys-hostel patterns. -/
def boysPatterns : List RE := [hostelP1 "boys", hostelP2 "boys", hostelP3 "boys"]

/-- The ordered girls-hostel patterns. -/
def girlsPatterns : List RE := [hostelP1 "girls", hostelP2 "girls", hostelP3 "girls"]

/-- Captured group of the first matching hostel pattern. -/
def firstHostelMatch (pats : List RE) (text : PyStr) : Option PyStr :=
  (pats.findSome? (fun p => reSearch p text)).map (fun m => groupStr m 1)

/-- Availability flag from the first matching pattern: `true` iff the
captured value is `available`, `separate` or `dedicated`. -/
def hostelFlag (pats : List RE) (text : PyStr) : PyVal :=
  match firstHostelMatch pats text with
  | some v =>
    if ["available", "separate", "dedicated"].any (fun w => lowerStr v == w.data) then
      .bool true
    else .bool false
  | Option.none => .none

/-- The bare-mention pattern `boys\s+hostel` (resp. `girls\s+hostel`). -/
def bareHostelPat (who : String) : RE := sqList [litStr who, wsP, litStr "hostel"]

/-- The ordered hostel-fee patterns of `_extract_hostel_info`. -/
def hostelFeePatterns : List RE :=
  [sqList [litStr "hostel", wsP, litStr "fee", .opt (.lit 's'), wsM,
     .opt (altList [litStr "is", .lit ':']), wsM, curOpt, wsM, numComma],
   sqList [litStr "hostel", wsP, litStr "charges", .star (.cls (.spaceOr ':')),
     curOpt, wsM, numComma]]

/-- The bare-mention fallback applied when the pattern loop found nothing. -/
def hostelFallback (flag : PyVal) (who : String) (text : PyStr) : PyVal :=
  match flag with
  | .none => if reTest (bareHostelPat who) text then .bool true else .none
  | v => v

/-- Source `_extract_hostel_info`. -/
def extractHostelInfo (text : PyStr) : HostelInfo :=
  let boys := hostelFallback (hostelFlag boysPatterns text) "boys" text
  let girls := hostelFallback (hostelFlag girlsPatterns text) "girls" text
  let fee : PyVal :=
    match hostelFeePatterns.findSome? (fun p => reSearch p text) with
    | some m =>
      match parseFloat (stripCommas (groupStr m 1)) with
      | some q => .float q
      | Option.none => .str (groupStr m 1)
    | Option.none => .none
  ⟨boys, girls, fee⟩

/-- The `eligibility_criteria` result of `_extract_eligibility`. -/
structure EligibilityInfo where
  academicRequirements : PyVal
  entranceExams : List PyStr
  cutoffScores : List (PyStr × PyVal)

/-- The ordered academic-requirement section patterns
(`eligibility\s+criteria[:\s]+...` and the two analogues). -/
def requirementPatterns : List RE :=
  [sectionPatRE (wordsPat ["eligibility", "criteria"]) 15,
   sectionPatRE (wordsPat ["academic", "requirements"]) 15,
   sectionPatRE (wordsPat ["minimum", "qualification"]) 15]

/-- The fixed list of known entrance exams, in source order. -/
def commonExams : List String :=
  ["JEE Main", "JEE Advanced", "GATE", "CAT", "MAT", "NEET",
   "GMAT", "GRE", "CMAT", "XAT", "CLAT", "NATA", "BITSAT"]

/-- The whole-word search `\b{exam}\b`. -/
def examPat (exam : String) : RE := sqList [.wb, litStr exam, .wb]

/-- The two cutoff patterns tried for a detected exam. -/
def cutoffPatterns (exam : String) : List RE :=
  [sqList [litStr exam,
     altList [sqList [wsP, litStr "cut", .cls (.spaceOr '-'), litStr "off"],
       .seq wsP (litStr "score"), .seq wsP (litStr "rank")],
     isOrColonOpt, wsM, numPlain],
   sqList [litStr "minimum", wsP, litStr exam, wsP,
     altStrs ["score", "rank", "percentile"], isOrColonOpt, wsM, numPlain]]

/-- The two generic minimum-percentage patterns. -/
def percentagePatterns : List RE :=
  [sqList [litStr "minimum", wsP, altStrs ["percentage", "marks"],
     .opt (.seq wsP (litStr "required")), wsM, .opt (altList [litStr "is", .lit ':']),
     wsM, numPlain, wsM, .lit '%'],
   sqList [altStrs ["candidate", "student"], .opt (.lit 's'), wsP, litStr "must", wsP,
     litStr "have", wsP, altStrs ["secured", "obtained", "scored"],
     .opt (sqList [wsP, litStr "a", wsP, litStr "minimum", wsP, litStr "of"]), wsM,
     numPlain, wsM, .lit '%']]

/-- Captured number of the first matching pattern: `float`, or the raw group
when conversion fails. -/
def floatOrRaw (pats : List RE) (text : PyStr) : Option PyVal :=
  (pats.findSome? (fun p => reSearch p text)).map (fun m =>
    match parseFloat (groupStr m 1) with
    | some q => .float q
    | Option.none => .str (groupStr m 1))

/-- Source `_extract_eligibility`. -/
def extractEligibility (text : PyStr) : EligibilityInfo :=
  let academic := firstSection requirementPatterns text
  let exams := (commonExams.filter (fun e => reTest (examPat e) text))
  let cutoffs := exams.foldl (fun cs exam =>
    match floatOrRaw (cutoffPatterns exam) text with
    | some v => dictSet cs exam.data v
    | Option.none => cs) []
  let cutoffs :=
    match floatOrRaw percentagePatterns text with
    | some v => dictSet cutoffs "12th_percentage".data v
    | Option.none => cutoffs
  ⟨academic, exams.map String.data, cutoffs⟩

/-! ### Placement extractor (`PlacementExtractor`) -/

/-- A pattern together with its Python source literal: the statistics loop
and the count-vs-percentage disambiguation inspect the pattern *string*
(`"lakh" in pattern.lower()`, `"%" not in pattern`). -/
structure SrcPattern where
  src : String
  re : RE

/-- The `is_lakh` test of `_extract_placement_statistics`:
`"lakh" in pattern.lower() or "lac" in pattern.lower()`. -/
def isLakhPattern (p : SrcPattern) : Bool :=
  containsSub "lakh".data (lowerStr p.src.data) || containsSub "lac".data (lowerStr p.src.data)

/-- The test `"%" in pattern` of the alternative-path and recruitment-type
loops. -/
def srcHasPercent (p : SrcPattern) : Bool := containsSub "%".data p.src.data

/-- The fragment `(?:package|salary|ctc)`. -/
def pkgWord : RE := altStrs ["package", "salary", "ctc"]

/-- The fragment `(?:lakh|lac|lacs)?`. -/
def lakhOpt : RE := .opt (altStrs ["lakh", "lac", "lacs"])

/-- The shape `{lead}\s+(?:package|salary|ctc)(?:\s+is|\s*:)?\s*(?:Rs\.?|INR|₹)?\s*(\d+(?:\.\d+)?)\s*(?:lakh|lac|lacs)?`. -/
def pkgReA (lead : String) : RE :=
  sqList [litStr lead, wsP, pkgWord, isOrColonOpt, wsM, curOpt, wsM, numPlain, wsM, lakhOpt]

/-- The shape `{lead}\s+(?:package|salary|ctc)(?:\s+of|\s*:)?\s*(?:Rs\.?|INR|₹)?\s*(\d+(?:,\d+)*(?:\.\d+)?)`. -/
def pkgReB (lead : String) : RE :=
  sqList [litStr lead, wsP, pkgWord, ofOrColonOpt, wsM, curOpt, wsM, numComma]

/-- The first `avg_package` pattern (its source mentions `lakh`/`lac` in the
optional unit suffix, so the `is_lakh` check is true whenever it matches). -/
def avgSrcP1 : SrcPattern :=
  ⟨"average\\s+(?:package|salary|ctc)(?:\\s+is|\\s*:)?\\s*(?:Rs\\.?|INR|₹)?\\s*(\\d+(?:\\.\\d+)?)\\s*(?:lakh|lac|lacs)?",
   pkgReA "average"⟩

/-- The second `avg_package` pattern (comma-grouped, no `lakh` literal). -/
def avgSrcP2 : SrcPattern :=
  ⟨"average\\s+(?:package|salary|ctc)(?:\\s+of|\\s*:)?\\s*(?:Rs\\.?|INR|₹)?\\s*(\\d+(?:,\\d+)*(?:\\.\\d+)?)",
   pkgReB "average"⟩

/-- The ordered `avg_package` patterns. -/
def avgPackagePatterns : List SrcPattern := [avgSrcP1, avgSrcP2]

/-- The ordered `highest_package` patterns. -/
def highestPackagePatterns : List SrcPattern :=
  [⟨"highest\\s+(?:package|salary|ctc)(?:\\s+is|\\s*:)?\\s*(?:Rs\\.?|INR|₹)?\\s*(\\d+(?:\\.\\d+)?)\\s*(?:lakh|lac|lacs)?",
    pkgReA "highest"⟩,
   ⟨"highest\\s+(?:package|salary|ctc)(?:\\s+of|\\s*:)?\\s*(?:Rs\\.?|INR|₹)?\\s*(\\d+(?:,\\d+)*(?:\\.\\d+)?)",
    pkgReB "highest"⟩,
   ⟨"maximum\\s+(?:package|salary|ctc)(?:\\s+is|\\s*:)?\\s*(?:Rs\\.?|INR|₹)?\\s*(\\d+(?:\\.\\d+)?)\\s*(?:lakh|lac|lacs)?",
    pkgReA "maximum"⟩]

/-- The ordered `median_package` patterns. -/
def medianPackagePatterns : List SrcPattern :=
  [⟨"median\\s+(?:package|salary|ctc)(?:\\s+is|\\s*:)?\\s*(?:Rs\\.?|INR|₹)?\\s*(\\d+(?:\\.\\d+)?)\\s*(?:lakh|lac|lacs)?",
    pkgReA "median"⟩,
   ⟨"median\\s+(?:package|salary|ctc)(?:\\s+of|\\s*:)?\\s*(?:Rs\\.?|INR|₹)?\\s*(\\d+(?:,\\d+)*(?:\\.\\d+)?)",
    pkgReB "median"⟩]

/-- The ordered `students_placed_count` patterns. -/
def studentsPlacedPatterns : List SrcPattern :=
  [⟨"(\\d+)\\s+students\\s+(?:were\\s+)?placed",
    sqList [numInt, wsP, litStr "students", wsP, .opt (.seq (litStr "were") wsP), litStr "placed"]⟩,
   ⟨"number\\s+of\\s+students\\s+placed(?:\\s+is|\\s*:)?\\s*(\\d+)",
    sqList [wordsPat ["number", "of", "students", "placed"], isOrColonOpt, wsM, numInt]⟩,
   ⟨"placed\\s+(\\d+)\\s+students",
    sqList [litStr "placed", wsP, numInt, wsP, litStr "students"]⟩]

/-- The ordered `total_students` patterns. -/
def totalStudentsPatterns : List SrcPattern :=
  [⟨"total\\s+(?:number\\s+of\\s+)?students(?:\\s+is|\\s*:)?\\s*(\\d+)",
    sqList [litStr "total", wsP, .opt (sqList [litStr "number", wsP, litStr "of", wsP]),
      litStr "students", isOrColonOpt, wsM, numInt]⟩,
   ⟨"(\\d+)\\s+students\\s+were\\s+eligible",
    sqList [numInt, wsP, wordsPat ["students", "were", "eligible"]]⟩,
   ⟨"batch\\s+(?:strength|size)(?:\\s+of|\\s+is|\\s*:)?\\s*(\\d+)",
    sqList [litStr "batch", wsP, altStrs ["strength", "size"],
      .opt (altList [.seq wsP (litStr "of"), .seq wsP (litStr "is"), .seq wsM (.lit ':')]),
      wsM, numInt]⟩]

/-- The ordered `placement_percentage` patterns. -/
def placementPercentagePatterns : List SrcPattern :=
  [⟨"placement\\s+percentage(?:\\s+is|\\s*:)?\\s*(\\d+(?:\\.\\d+)?)\\s*%",
    sqList [wordsPat ["placement", "percentage"], isOrColonOpt, wsM, numPlain, wsM, .lit '%']⟩,
   ⟨"(\\d+(?:\\.\\d+)?)\\s*%\\s+(?:students\\s+)?(?:were\\s+)?placed",
    sqList [numPlain, wsM, .lit '%', wsP, .opt (.seq (litStr "students") wsP),
      .opt (.seq (litStr "were") wsP), litStr "placed"]⟩,
   ⟨"placement\\s+rate(?:\\s+is|\\s*:)?\\s*(\\d+(?:\\.\\d+)?)\\s*%",
    sqList [wordsPat ["placement", "rate"], isOrColonOpt, wsM, numPlain, wsM, .lit '%']⟩]

/-- The `statistics` mapping of `_extract_placement_statistics`. -/
structure PlacementStats where
  avgPackage : PyVal
  highestPackage : PyVal
  medianPackage : PyVal
  studentsPlacedCount : PyVal
  totalStudents : PyVal
  placementPercentage : PyVal

/-- Text loop of `_extract_placement_statistics` for one statistic: the first
matching pattern decides; the comma-stripped group is converted with `float`;
a pattern whose source mentions `lakh`/`lac` stores the value as-is, otherwise
values at or above 100 are divided by 100000; a failed conversion stores the
raw group. -/
def statFromText (pats : List SrcPattern) (text : PyStr) : PyVal :=
  match pats with
  | [] => .none
  | p :: rest =>
    match reSearch p.re text with
    | some m =>
      match parseFloat (stripCommas (groupStr m 1)) with
      | some fv =>
        if isLakhPattern p then .float fv
        else if fv.blt (pyInt 100) then .float fv
        else .float (fv.div (pyInt 100000))
      | Option.none => .str (groupStr m 1)
    | Option.none => statFromText rest text

/-- Table loop of `_extract_placement_statistics` for one statistic and one
row text: only fills a statistic that is still `None`, converting the
comma-stripped group with `float` and keeping the raw group on failure (no
magnitude adjustment here). -/
def fillStatFromRow (pats : List SrcPattern) (cur : PyVal) (rowText : PyStr) : PyVal :=
  match cur with
  | .none =>
    match pats.findSome? (fun p => reSearch p.re rowText) with
    | some m =>
      match parseFloat (stripCommas (groupStr m 1)) with
      | some fv => .float fv
      | Option.none => .str (groupStr m 1)
    | Option.none => .none
  | v => v

/-- One summary-table row applied to all six statistics. -/
def statTableStep (st : PlacementStats) (rowText : PyStr) : PlacementStats :=
  { avgPackage := fillStatFromRow avgPackagePatterns st.avgPackage rowText
    highestPackage := fillStatFromRow highestPackagePatterns st.highestPackage rowText
    medianPackage := fillStatFromRow medianPackagePatterns st.medianPackage rowText
    studentsPlacedCount := fillStatFromRow studentsPlacedPatterns st.studentsPlacedCount rowText
    totalStudents := fillStatFromRow totalStudentsPatterns st.totalStudents rowText
    placementPercentage :=
      fillStatFromRow placementPercentagePatterns st.placementPercentage rowText }

/-- The statistics found in the text alone. -/
def statsFromText (text : PyStr) : PlacementStats :=
  { avgPackage := statFromText avgPackagePatterns text
    highestPackage := statFromText highestPackagePatterns text
    medianPackage := statFromText medianPackagePatterns text
    studentsPlacedCount := statFromText studentsPlacedPatterns text
    totalStudents := statFromText totalStudentsPatterns text
    placementPercentage := statFromText placementPercentagePatterns text }

/-- Row loop of the statistics table phase. -/
def statsRowsLoop (st : PlacementStats) : List (List PyStr) → PlacementStats
  | [] => st
  | row :: rest => statsRowsLoop (statTableStep st (lowerStr (joinStr " ".data row))) rest

/-- Table phase: only summary tables (at most 3 raw rows) whose headers
mention a statistic keyword are scanned, row texts lower-cased and joined
with spaces. -/
def statsFromTables (st : PlacementStats) : List ExtractedTable → PlacementStats
  | [] => st
  | t :: rest =>
    let headers := t.headers.map lowerStr
    let hasStatHeader := headers.any (fun h =>
      !h.isEmpty && anyKwIn ["package", "salary", "ctc", "placed", "recruitment"] h)
    statsFromTables
      (if hasStatHeader && t.rawRows.length ≤ 3 then statsRowsLoop st t.rawRows else st) rest

/-- Python `float(v)` applied to a statistics entry. -/
def pyFloatOf : PyVal → Option PyRat
  | .int n => some (pyInt n)
  | .float q => some q
  | .str s => parseFloat s
  | _ => Option.none

/-- Derivation step: when no explicit percentage was found and both the
placed count and the total are truthy, `100 * placed/total` rounded to two
decimals; any conversion error or a zero divisor is swallowed. -/
def addDerivedPercentage (st : PlacementStats) : PlacementStats :=
  match st.placementPercentage with
  | .none =>
    if truthy st.studentsPlacedCount && truthy st.totalStudents then
      match pyFloatOf st.studentsPlacedCount, pyFloatOf st.totalStudents with
      | some c, some t =>
        if t.isZero then st
        else { st with placementPercentage := .float (round2 ((c.div t).mul (pyInt 100))) }
      | _, _ => st
    else st
  | _ => st

/-- Source `_extract_placement_statistics`. -/
def extractPlacementStatistics (text : PyStr) (tables : List ExtractedTable) :
    PlacementStats :=
  addDerivedPercentage (statsFromTables (statsFromText text) tables)

/-- The `recruiters` result of `_extract_recruiters`. -/
structure RecruitersInfo where
  topCompanies : List PyStr
  totalCompaniesVisited : PyVal

/-- The ordered total-company patterns of `_extract_recruiters`. -/
def recruiterTotalPatterns : List RE :=
  [sqList [numInt, wsP, litStr "companies", wsP, altStrs ["visited", "participated", "recruited"]],
   sqList [litStr "total", wsP, .opt (sqList [litStr "number", wsP, litStr "of", wsP]),
     litStr "companies", .opt (.seq wsP (litStr "visited")), isOrColonOpt, wsM, numInt],
   sqList [altStrs ["visited", "participated", "recruited"], .opt (.seq wsP (litStr "by")),
     wsP, numInt, wsP, litStr "companies"]]

/-- First matching pattern, `int`-converted with the raw group on failure. -/
def intOrRaw (pats : List RE) (text : PyStr) : PyVal :=
  match pats.findSome? (fun p => reSearch p text) with
  | some m =>
    match parseInt (groupStr m 1) with
    | some n => .int n
    | Option.none => .str (groupStr m 1)
  | Option.none => .none

/-- The section terminator `(?:\n\n|\.\s+[A-Z])`. -/
def sectEnd : RE := .alt (.seq (.lit '\n') (.lit '\n')) (sqList [.lit '.', wsP, .cls .alphaAZ])

/-- The capture `(.+?)` followed by the section terminator. -/
def companyCapture : RE := .seq (.grp 1 (rePlusL (.cls .dotAny))) sectEnd

/-- The ordered company-section patterns of `_extract_recruiters`. -/
def recruiterSectionPatterns : List RE :=
  [sqList [altStrs ["top", "major", "prominent"], wsP, litStr "recruiters",
     .opt (.seq wsP (litStr "include")), colonSpaceP, companyCapture],
   sqList [altStrs ["top", "major", "prominent"], wsP, litStr "companies",
     .opt (.seq wsP (litStr "include")), colonSpaceP, companyCapture],
   sqList [litStr "our", wsP, litStr "recruiters", .opt (.seq wsP (litStr "include")),
     colonSpaceP, companyCapture]]

/-- The noise stoplist applied to split company candidates. -/
def noisePhrases : List String := ["companies", "include", "etc", "and", "more", "others"]

/-- Company candidates of a section text: split on common separators,
stripped, longer than 2 characters, not digits, not a noise phrase. -/
def companyCandidates (companiesText : PyStr) : List PyStr :=
  (splitOnSet [',', ';', '/', '\n', '•'] companiesText).filterMap (fun cand =>
    let cand := stripStr cand
    if 2 < cand.length && !isDigitStr cand &&
        !(noisePhrases.any (fun ph => lowerStr cand == ph.data)) then
      some cand
    else Option.none)

/-- Company names mined from every matching section pattern (no `break`:
all three patterns contribute). -/
def sectionCompanies (pats : List RE) (text : PyStr) : List PyStr :=
  (pats.map (fun p =>
    match reSearch p text with
    | some m => companyCandidates (groupStr m 1)
    | Option.none => [])).flatten

/-- Company names from table rows under the first company-like header. -/
def tableCompanies (headerKws companyKws : List String) (tables : List ExtractedTable)
    (acc : List PyStr) : List PyStr :=
  tables.foldl (fun cs t =>
    let headers := t.headers.map lowerStr
    if headers.any (fun h => !h.isEmpty && anyKwIn headerKws h) then
      match firstIdxWhere (fun h => !h.isEmpty && anyKwIn companyKws h) headers with
      | some ci =>
        t.rawRows.foldl (fun cs2 row =>
          if ci < row.length && !(row.getD ci []).isEmpty then
            let company := stripStr (row.getD ci [])
            if 2 < company.length && !isDigitStr company then cs2 ++ [company] else cs2
          else cs2) cs
      | Option.none => cs
    else cs) acc

/-- Source `_extract_recruiters`. -/
def extractRecruiters (text : PyStr) (tables : List ExtractedTable) : RecruitersInfo :=
  let total := intOrRaw recruiterTotalPatterns text
  let companies := sectionCompanies recruiterSectionPatterns text
  let companies :=
    tableCompanies ["company", "recruiter", "organization", "firm"]
      ["company", "recruiter", "organization", "firm"] tables companies
  let companies := if companies.isEmpty then companies else dedupFirst [] companies
  ⟨companies, total⟩

/-- The `historical_data` result of `_extract_historical_data`. -/
structure HistoricalData where
  yearWise : List (PyStr × PyVal)

/-- The year pattern `(20\d\d)(?:[^0-9]|$)`. -/
def yearRe1 : RE := sqList [.grp 1 (sqList [.lit '2', .lit '0', dCls, dCls]),
  .alt (.cls (.notInSet digitChars)) .eos]

/-- The year pattern `(\d\d)[^0-9](\d\d)`. -/
def yearRe2 : RE := sqList [.grp 1 (.seq dCls dCls), .cls (.notInSet digitChars),
  .grp 2 (.seq dCls dCls)]

/-- Fractional decimal digits of a rational in `[0,1)`, up to a budget. -/
def fracDigits : PyRat → Nat → PyStr
  | _, 0 => []
  | q, n + 1 =>
    if q.isZero then []
    else
      let d := ((q.mul (pyInt 10)).floor).toNat
      Char.ofNat (48 + d) :: fracDigits ((q.mul (pyInt 10)).sub (pyInt d)) n

/-- Decimal rendering of Python `str(float(x))` for the terminating decimal
values produced by the cleaned percentage cells (e.g. `85` ↦ `"85.0"`). -/
def pyFloatRepr (q : PyRat) : PyStr :=
  let sign : PyStr := if q.num < 0 then ['-'] else []
  let aq : PyRat := ⟨q.num.natAbs, q.den⟩
  let ip := aq.floor.toNat
  let fd := fracDigits (aq.sub (pyInt ip)) 17
  sign ++ natDigits ip ++ ['.'] ++ (if fd.isEmpty then ['0'] else fd)

/-- The `year_data` mapping of one historical row. -/
def historicalYearData (row : List PyStr) (packageCol percentageCol : Option Nat) :
    List (PyStr × PyVal) :=
  let pk : List (PyStr × PyVal) :=
    match packageCol with
    | some pc =>
      if pc < row.length then
        let packageValue := row.getD pc []
        let cleaned := keepDigitsDot packageValue
        if !cleaned.isEmpty then
          match parseFloat cleaned with
          | some q => [("avg_package".data, .float q)]
          | Option.none => [("avg_package".data, .str packageValue)]
        else []
      else []
    | Option.none => []
  let pl : List (PyStr × PyVal) :=
    match percentageCol with
    | some qc =>
      if qc < row.length then
        let percentageValue := row.getD qc []
        let cleaned := keepDigitsDot percentageValue
        if !cleaned.isEmpty then
          match parseFloat cleaned with
          | some q => [("placed".data, .str (pyFloatRepr q ++ ['%']))]
          | Option.none => [("placed".data, .str percentageValue)]
        else []
      else []
    | Option.none => []
  pk ++ pl

/-- Source `_extract_historical_data` (the text argument is unused by the source). -/
def extractHistoricalData (text : PyStr) (tables : List ExtractedTable) : HistoricalData :=
  let _ := text
  ⟨tables.foldl (fun yw t =>
    let headers := t.headers.map lowerStr
    let hasYearCol := headers.any (fun h =>
      !h.isEmpty && anyKwIn ["year", "session", "batch", "academic year"] h)
    let hasStatCol := headers.any (fun h =>
      !h.isEmpty && anyKwIn ["package", "placed", "salary", "ctc", "recruitment"] h)
    if hasYearCol && hasStatCol then
      let cols := headers.enum.foldl (fun cols ih =>
        let (yc, pc, qc) := cols
        let (i, h) := ih
        if h.isEmpty then cols
        else if anyKwIn ["year", "session", "batch", "academic year"] h then (some i, pc, qc)
        else if anyKwIn ["package", "salary", "ctc"] h then (yc, some i, qc)
        else if anyKwIn ["percentage", "%"] h then (yc, pc, some i)
        else cols)
        ((Option.none : Option Nat), (Option.none : Option Nat), (Option.none : Option Nat))
      match cols.1 with
      | Option.none => yw
      | some yc =>
        t.rawRows.foldl (fun yw2 row =>
          if row.length ≤ yc then yw2
          else
            let yearValue := stripStr (row.getD yc [])
            match (reSearch yearRe1 yearValue).orElse (fun _ => reSearch yearRe2 yearValue) with
            | Option.none => yw2
            | some ym =>
              let year := groupStr ym 1
              let yearData := historicalYearData row cols.2.1 cols.2.2
              if yearData.isEmpty then yw2 else dictSet yw2 year (.dict yearData)) yw
    else yw) []⟩

/-- The `alternative_paths` result of `_extract_alternative_paths`. -/
structure AlternativePaths where
  higherStudies : PyVal
  abroadStudies : PyVal
  startupsFounded : PyVal

/-- The fragment `(?::|\s+-)?`. -/
def colonDashOpt : RE := .opt (altList [.lit ':', .seq wsP (.lit '-')])

/-- The ordered `higher_studies` patterns. -/
def higherStudiesPatterns : List SrcPattern :=
  [⟨"(\\d+(?:\\.\\d+)?)\\s*%\\s+(?:students\\s+)?(?:went\\s+for|opted\\s+for|pursuing)\\s+higher\\s+studies",
    sqList [numPlain, wsM, .lit '%', wsP, .opt (.seq (litStr "students") wsP),
      altList [wordsPat ["went", "for"], wordsPat ["opted", "for"], litStr "pursuing"],
      wsP, wordsPat ["higher", "studies"]]⟩,
   ⟨"higher\\s+studies\\s*(?::|\\s+-)?\\s*(\\d+(?:\\.\\d+)?)\\s*%",
    sqList [wordsPat ["higher", "studies"], wsM, colonDashOpt, wsM, numPlain, wsM, .lit '%']⟩,
   ⟨"(\\d+)\\s+students\\s+(?:went\\s+for|opted\\s+for|pursuing)\\s+higher\\s+studies",
    sqList [numInt, wsP, litStr "students", wsP,
      altList [wordsPat ["went", "for"], wordsPat ["opted", "for"], litStr "pursuing"],
      wsP, wordsPat ["higher", "studies"]]⟩]

/-- The ordered `abroad_studies` patterns. -/
def abroadStudiesPatterns : List SrcPattern :=
  [⟨"(\\d+(?:\\.\\d+)?)\\s*%\\s+(?:students\\s+)?(?:went|studying)\\s+abroad",
    sqList [numPlain, wsM, .lit '%', wsP, .opt (.seq (litStr "students") wsP),
      altStrs ["went", "studying"], wsP, litStr "abroad"]⟩,
   ⟨"(?:study|studies)\\s+abroad\\s*(?::|\\s+-)?\\s*(\\d+(?:\\.\\d+)?)\\s*%",
    sqList [altStrs ["study", "studies"], wsP, litStr "abroad", wsM, colonDashOpt,
      wsM, numPlain, wsM, .lit '%']⟩,
   ⟨"(\\d+)\\s+students\\s+(?:went|studying)\\s+abroad",
    sqList [numInt, wsP, litStr "students", wsP, altStrs ["went", "studying"],
      wsP, litStr "abroad"]⟩]

/-- The ordered `startups_founded` patterns. -/
def startupsFoundedPatterns : List SrcPattern :=
  [⟨"(\\d+(?:\\.\\d+)?)\\s*%\\s+(?:students\\s+)?founded\\s+(?:their\\s+own\\s+)?(?:startups|companies|ventures)",
    sqList [numPlain, wsM, .lit '%', wsP, .opt (.seq (litStr "students") wsP),
      litStr "founded", wsP, .opt (sqList [litStr "their", wsP, litStr "own", wsP]),
      altStrs ["startups", "companies", "ventures"]]⟩,
   ⟨"(?:startups|ventures|entrepreneurship)\\s*(?::|\\s+-)?\\s*(\\d+(?:\\.\\d+)?)\\s*%",
    sqList [altStrs ["startups", "ventures", "entrepreneurship"], wsM, colonDashOpt,
      wsM, numPlain, wsM, .lit '%']⟩,
   ⟨"(\\d+)\\s+students\\s+founded\\s+(?:their\\s+own\\s+)?(?:startups|companies|ventures)",
    sqList [numInt, wsP, litStr "students", wsP, litStr "founded", wsP,
      .opt (sqList [litStr "their", wsP, litStr "own", wsP]),
      altStrs ["startups", "companies", "ventures"]]⟩]

/-- Text loop shared by alternative paths and recruitment types: first
matching pattern; a value above 100 whose pattern source has no `%` literal
is cast to `int`, everything else stays a `float`; the raw group is kept when
conversion fails. -/
def thresholdNumFromText (pats : List SrcPattern) (text : PyStr) : PyVal :=
  match pats with
  | [] => .none
  | p :: rest =>
    match reSearch p.re text with
    | some m =>
      match parseFloat (groupStr m 1) with
      | some v => if (pyInt 100).blt v && !srcHasPercent p then .int v.floor else .float v
      | Option.none => .str (groupStr m 1)
    | Option.none => thresholdNumFromText rest text

/-- Cell handling of the alternative-path table loop. -/
def altTableCell (value : PyStr) : PyVal :=
  let exceptVal : PyVal :=
    if !value.isEmpty && !isSpaceStr value then .str value else .none
  let num := keepDigitsDot value
  if containsSub "%".data value then
    if !num.isEmpty then
      match parseFloat num with
      | some q => .float q
      | Option.none => exceptVal
    else .none
  else
    if !num.isEmpty then
      match parseFloat num with
      | some q => if q.den == 1 then .int q.num else .float q
      | Option.none => exceptVal
    else .none

/-- The first row long enough to have a cell in column `i`. -/
def firstLongRow (i : Nat) (rows : List (List PyStr)) : Option PyStr :=
  (rows.find? (fun row => i < row.length)).map (fun row => row.getD i [])

/-- Table loop of `_extract_alternative_paths`. -/
def altPathsFromTables (ap : AlternativePaths) (tables : List ExtractedTable) :
    AlternativePaths :=
  tables.foldl (fun ap2 t =>
    let headers := t.headers.map lowerStr
    if headers.any (fun h =>
        !h.isEmpty && anyKwIn ["higher studies", "abroad", "startups", "entrepreneurship"] h) then
      headers.enum.foldl (fun ap3 ih =>
        let (i, h) := ih
        if h.isEmpty then ap3
        else
          let upd : PyVal → PyVal := fun cur =>
            match cur with
            | .none =>
              match firstLongRow i t.rawRows with
              | some v => altTableCell v
              | Option.none => .none
            | v => v
          if containsSub "higher studies".data h then
            { ap3 with higherStudies := upd ap3.higherStudies }
          else if containsSub "abroad".data h then
            { ap3 with abroadStudies := upd ap3.abroadStudies }
          else if containsSub "startup".data h || containsSub "entrepreneur".data h then
            { ap3 with startupsFounded := upd ap3.startupsFounded }
          else ap3) ap2
    else ap2) ap

/-- Source `_extract_alternative_paths`. -/
def extractAlternativePaths (text : PyStr) (tables : List ExtractedTable) :
    AlternativePaths :=
  altPathsFromTables
    ⟨thresholdNumFromText higherStudiesPatterns text,
     thresholdNumFromText abroadStudiesPatterns text,
     thresholdNumFromText startupsFoundedPatterns text⟩ tables

/-- The `internships` result of `_extract_internships`. -/
structure InternshipInfo where
  count : PyVal
  companies : List PyStr
  percentage : PyVal

/-- The ordered internship-count patterns. -/
def internshipCountPatterns : List RE :=
  [sqList [numInt, wsP, .opt (.seq (litStr "students") wsP),
     altList [litStr "received", litStr "got", wordsPat ["were", "offered"]],
     wsP, litStr "internship"],
   sqList [altStrs ["offered", "provided"], wsP, numInt, wsP, litStr "internships"],
   sqList [wordsPat ["number", "of", "internships"], isOrColonOpt, wsM, numInt]]

/-- The ordered internship-percentage patterns. -/
def internshipPercentagePatterns : List RE :=
  [sqList [numPlain, wsM, .lit '%', wsP, .opt (.seq (litStr "students") wsP),
     altList [litStr "received", litStr "got", wordsPat ["were", "offered"]],
     wsP, litStr "internship"],
   sqList [wordsPat ["internship", "percentage"], isOrColonOpt, wsM, numPlain, wsM, .lit '%']]

/-- The ordered internship company-section patterns. -/
def internshipSectionPatterns : List RE :=
  [sqList [litStr "internship", wsP, altStrs ["companies", "providers", "recruiters"],
     .opt (.seq wsP (litStr "include")), colonSpaceP, companyCapture],
   sqList [litStr "companies", wsP, altStrs ["offering", "providing"], wsP,
     litStr "internship", .opt (.lit 's'), .opt (.seq wsP (litStr "include")),
     colonSpaceP, companyCapture]]

/-- Source `_extract_internships`. -/
def extractInternships (text : PyStr) (tables : List ExtractedTable) : InternshipInfo :=
  let count := intOrRaw internshipCountPatterns text
  let percentage := (floatOrRaw internshipPercentagePatterns text).getD .none
  let companies := sectionCompanies internshipSectionPatterns text
  let companies :=
    tableCompanies ["internship", "summer training", "industrial training"]
      ["company", "organization", "provider"] tables companies
  let companies := if companies.isEmpty then companies else dedupFirst [] companies
  ⟨count, companies, percentage⟩

/-- The `recruitment_types` result of `_extract_recruitment_types`. -/
structure RecruitmentTypes where
  onCampus : PyVal
  offCampus : PyVal
  poolCampus : PyVal

/-- The fragment `{w}[\s-]campus`. -/
def campusWord (w : String) : RE := sqList [litStr w, .cls (.spaceOr '-'), litStr "campus"]

/-- The three patterns of one recruitment type, with `w` one of
`on`/`off`/`pool`. -/
def mkCampusPatterns (w : String) : List SrcPattern :=
  [⟨"(\\d+(?:\\.\\d+)?)\\s*%\\s+(?:of\\s+)?(?:students\\s+)?(?:placed|recruited)\\s+through\\s+"
      ++ w ++ "[\\s-]campus",
    sqList [numPlain, wsM, .lit '%', wsP, .opt (.seq (litStr "of") wsP),
      .opt (.seq (litStr "students") wsP), altStrs ["placed", "recruited"], wsP,
      litStr "through", wsP, campusWord w]⟩,
   ⟨w ++ "[\\s-]campus\\s+placement(?:\\s+percentage)?(?:\\s+is|\\s*:)?\\s*(\\d+(?:\\.\\d+)?)\\s*%",
    sqList [campusWord w, wsP, litStr "placement", .opt (.seq wsP (litStr "percentage")),
      isOrColonOpt, wsM, numPlain, wsM, .lit '%']⟩,
   ⟨"(\\d+)\\s+students\\s+(?:placed|recruited)\\s+through\\s+" ++ w ++ "[\\s-]campus",
    sqList [numInt, wsP, litStr "students", wsP, altStrs ["placed", "recruited"], wsP,
      litStr "through", wsP, campusWord w]⟩]

/-- Source `_extract_recruitment_types`. -/
def extractRecruitmentTypes (text : PyStr) : RecruitmentTypes :=
  ⟨thresholdNumFromText (mkCampusPatterns "on") text,
   thresholdNumFromText (mkCampusPatterns "off") text,
   thresholdNumFromText (mkCampusPatterns "pool") text⟩

/-! ### Records, AI merge and the top-level extraction calls -/

/-- Optional dict entry (a key that is only present when it was assigned). -/
def optPair (k : String) : Option PyVal → List (PyStr × PyVal)
  | some v => [(k.data, v)]
  | Option.none => []

/-- One `application_deadlines` entry as a Python dict. -/
def deadlineVal (d : DeadlineInfo) : PyVal :=
  .dict [("date_str".data, .str d.dateStr), ("context".data, .str d.context),
    ("event_type".data, .str d.eventType)]

/-- One `courses_offered` entry as a Python dict. -/
def courseVal (c : CourseInfo) : PyVal :=
  .dict ([("name".data, PyVal.str c.name)]
    ++ (optPair "duration" (c.duration.map PyVal.str))
    ++ (optPair "seats" (c.seats.map PyVal.str))
    ++ (optPair "fee" (c.fee.map PyVal.str)))

/-- The `seats_available` value as a Python dict. -/
def seatsVal (s : SeatInfo) : PyVal :=
  .dict [("total".data, s.total), ("category_wise".data, .dict s.categoryWise)]

/-- The `fee_structure` value as a Python dict. -/
def feeVal (f : FeeInfo) : PyVal :=
  .dict ([("course_wise".data, PyVal.dict f.courseWise),
    ("payment_schedule".data, f.paymentSchedule)]
    ++ optPair "hostel_fee" f.hostelFee
    ++ optPair "first_year" f.firstYear
    ++ optPair "general_fee" f.generalFee)

/-- The `hostel_facilities` value as a Python dict. -/
def hostelVal (h : HostelInfo) : PyVal :=
  .dict [("boys_hostel".data, h.boysHostel), ("girls_hostel".data, h.girlsHostel),
    ("hostel_fee".data, h.hostelFee)]

/-- The `eligibility_criteria` value as a Python dict. -/
def eligVal (e : EligibilityInfo) : PyVal :=
  .dict [("academic_requirements".data, e.academicRequirements),
    ("entrance_exams".data, .list (e.entranceExams.map PyVal.str)),
    ("cutoff_scores".data, .dict e.cutoffScores)]

/-- The `statistics` value as a Python dict. -/
def statsVal (s : PlacementStats) : PyVal :=
  .dict [("avg_package".data, s.avgPackage), ("highest_package".data, s.highestPackage),
    ("median_package".data, s.medianPackage),
    ("students_placed_count".data, s.studentsPlacedCount),
    ("total_students".data, s.totalStudents),
    ("placement_percentage".data, s.placementPercentage)]

/-- The `recruiters` value as a Python dict. -/
def recruitersVal (r : RecruitersInfo) : PyVal :=
  .dict [("top_companies".data, .list (r.topCompanies.map PyVal.str)),
    ("total_companies_visited".data, r.totalCompaniesVisited)]

/-- The `historical_data` value as a Python dict. -/
def historicalVal (h : HistoricalData) : PyVal :=
  .dict [("year_wise".data, .dict h.yearWise)]

/-- The `alternative_paths` value as a Python dict. -/
def altVal (a : AlternativePaths) : PyVal :=
  .dict [("higher_studies".data, a.higherStudies), ("abroad_studies".data, a.abroadStudies),
    ("startups_founded".data, a.startupsFounded)]

/-- The `internships` value as a Python dict. -/
def internVal (i : InternshipInfo) : PyVal :=
  .dict [("count".data, i.count), ("companies".data, .list (i.companies.map PyVal.str)),
    ("percentage".data, i.percentage)]

/-- The `recruitment_types` value as a Python dict. -/
def rectypesVal (r : RecruitmentTypes) : PyVal :=
  .dict [("on_campus".data, r.onCampus), ("off_campus".data, r.offCampus),
    ("pool_campus".data, r.poolCampus)]

/-- The nested `admission_data` mapping built by `extract_admission_data`. -/
def admissionDataDict (text : PyStr) (tables : List ExtractedTable) :
    List (PyStr × PyVal) :=
  [("application_deadlines".data,
      .list ((extractApplicationDeadlines text tables).map deadlineVal)),
   ("courses_offered".data, .list ((extractCourses text tables).map courseVal)),
   ("seats_available".data, seatsVal (extract_seats text tables)),
   ("fee_structure".data, feeVal (extract_fees text tables)),
   ("hostel_facilities".data, hostelVal (extractHostelInfo text)),
   ("eligibility_criteria".data, eligVal (extractEligibility text))]

/-- The nested `placement_data` mapping built by `extract_placement_data`. -/
def placementDataDict (text : PyStr) (tables : List ExtractedTable) :
    List (PyStr × PyVal) :=
  [("statistics".data, statsVal (extractPlacementStatistics text tables)),
   ("recruiters".data, recruitersVal (extractRecruiters text tables)),
   ("historical_data".data, historicalVal (extractHistoricalData text tables)),
   ("alternative_paths".data, altVal (extractAlternativePaths text tables)),
   ("internships".data, internVal (extractInternships text tables)),
   ("recruitment_types".data, rectypesVal (extractRecruitmentTypes text))]

/-- A top-level extraction record (`admission_data` / `placement_data`
result dict); the two `datetime.now()` readings are modelled as opaque
timestamp tokens taken as arguments. -/
structure ExtRecord where
  collegeName : PyStr
  lastUpdated : Nat
  nested : List (PyStr × PyVal)
  confidenceScore : PyVal
  processingDate : Nat

/-- The AI merge loop: an enhanced entry overwrites a nested field exactly
when its value is truthy and the key already exists in the nested mapping. -/
def mergeEnhanced (base : List (PyStr × PyVal)) : List (PyStr × PyVal) → List (PyStr × PyVal)
  | [] => base
  | (k, v) :: rest =>
    mergeEnhanced (if truthy v && dictHasKey base k then dictSet base k v else base) rest

/-- The whole AI-processing step of the top-level call: an adapter exception
leaves the record unchanged; an empty result dict is falsy and skipped; else
the merge loop runs and the confidence score becomes the adapter's reported
one (default 0.8). -/
def aiStep (r : ExtRecord) (res : Except Unit (List (PyStr × PyVal))) : ExtRecord :=
  match res with
  | .error _ => r
  | .ok enhanced =>
    if enhanced.isEmpty then r
    else
      { r with
        nested := mergeEnhanced r.nested enhanced
        confidenceScore := (dictGet? enhanced "confidence_score".data).getD (.float ⟨4, 5⟩) }

/-- The AI adapter: one question battery per content type, returning the
enhanced-data mapping or failing (`Except.error` models a raised exception). -/
structure AIProc where
  processAdmissionContent : PyStr → List ExtractedTable → Except Unit (List (PyStr × PyVal))
  processPlacementContent : PyStr → List ExtractedTable → Except Unit (List (PyStr × PyVal))

/-- The BeautifulSoup boundary: parsing raw markup into text and table nodes
is external to this code and modelled as two fixed functions that may fail. -/
structure SoupModel where
  textOf : PyStr → Except Unit PyStr
  tablesOf : PyStr → Except Unit (List HtmlTable)

/-- Source `extract_text`: the `try`/`except` returns the empty string on failure. -/
def extract_text (m : SoupModel) (html : PyStr) : PyStr :=
  match m.textOf html with
  | .error _ => []
  | .ok t => t

/-- Source `extract_tables` applied through the parsing boundary. -/
def extractTablesOf (m : SoupModel) (html : PyStr) : List ExtractedTable :=
  extract_tables (m.tablesOf html)

/-- The extractor instance: the optional AI processor and the parsing
collaborator (the keyword dictionaries are the module-level constants
above). -/
structure ExtractorSelf where
  aiProcessor : Option AIProc
  soup : SoupModel

/-- Shared preamble of both top-level calls: HTML content is routed through
text/table extraction, plain text is used as-is with no tables. -/
def contentSplit (self : ExtractorSelf) (content : PyStr) : PyStr × List ExtractedTable :=
  if containsSub "<html".data content || containsSub "<body".data content then
    (extract_text self.soup content, extractTablesOf self.soup content)
  else (content, [])

/-- Source `extract_admission_data`: the record is built fresh from the rule-based
sub-extractors, then optionally AI-merged; the instance is returned unchanged
alongside the record to witness that the method never mutates `self`. -/
def extract_admission_data (self : ExtractorSelf) (content collegeName : PyStr)
    (now1 now2 : Nat) : ExtRecord × ExtractorSelf :=
  let (textContent, tables) := contentSplit self content
  let record : ExtRecord :=
    { collegeName := collegeName
      lastUpdated := now1
      nested := admissionDataDict textContent tables
      confidenceScore := .float ⟨7, 10⟩
      processingDate := now2 }
  let record :=
    match self.aiProcessor with
    | Option.none => record
    | some p => aiStep record (p.processAdmissionContent textContent tables)
  (record, self)

/-- Source `extract_placement_data`, mirroring `extract_admission_data`. -/
def extract_placement_data (self : ExtractorSelf) (content collegeName : PyStr)
    (now1 now2 : Nat) : ExtRecord × ExtractorSelf :=
  let (textContent, tables) := contentSplit self content
  let record : ExtRecord :=
    { collegeName := collegeName
      lastUpdated := now1
      nested := placementDataDict textContent tables
      confidenceScore := .float ⟨7, 10⟩
      processingDate := now2 }
  let record :=
    match self.aiProcessor with
    | Option.none => record
    | some p => aiStep record (p.processPlacementContent textContent tables)
  (record, self)

/-! ### Concrete fixtures used by the closed theorems -/

/-- The record with its two timestamp fields cleared, for comparing records
up to `last_updated` / `processing_date`. -/
def stripTs (r : ExtRecord) : ExtRecord := { r with lastUpdated := 0, processingDate := 0 }

/-- The extractor instance used for the closed degradation checks: no AI
processor, and a parser that yields an empty document. -/
def noAiSelf : ExtractorSelf :=
  { aiProcessor := Option.none
    soup := { textOf := fun _ => .ok [], tablesOf := fun _ => .ok [] } }

/-- A document with one date in a deadline context and a second date far
enough away that its ±100-character window holds no deadline keyword. -/
def t7 : PyStr :=
  ("application deadline: 12/05/2024." ++
   " zzzz zzzz zzzz zzzz zzzz zzzz zzzz zzzz zzzz zzzz zzzz zzzz zzzz zzzz zzzz" ++
   " zzzz zzzz zzzz zzzz zzzz" ++
   " met on 01/02/2019").data

/-- A summary table carrying both a placed count of 180 and a batch size of
200 (the table path stores them without the magnitude heuristic). -/
def statTable180 : ExtractedTable :=
  { headers := ["Placed Students".data, "Batch".data]
    rows := [[("Placed Students".data, "placed 180 students".data),
      ("Batch".data, "batch size 200".data)]]
    rawRows := [["placed 180 students".data, "batch size 200".data]] }

/-- A category table whose `OBC` cell is not numeric. -/
def seatTableBad : ExtractedTable :=
  { headers := ["Category".data, "Seats".data]
    rows := [[("Category".data, "General".data), ("Seats".data, "50".data)],
      [("Category".data, "OBC".data), ("Seats".data, "NA".data)]]
    rawRows := [["General".data, "50".data], ["OBC".data, "NA".data]] }

/-- The category table of the specification's example. -/
def seatTable4 : ExtractedTable :=
  { headers := ["Category".data, "Seats".data]
    rows := [[("Category".data, "General".data), ("Seats".data, "50".data)],
      [("Category".data, "OBC".data), ("Seats".data, "27".data)],
      [("Category".data, "SC".data), ("Seats".data, "15".data)],
      [("Category".data, "ST".data), ("Seats".data, "8".data)]]
    rawRows := [["General".data, "50".data], ["OBC".data, "27".data],
      ["SC".data, "15".data], ["ST".data, "8".data]] }

/-- A table whose first row repeats the header text `Seats`. -/
def dupHdrTable : HtmlTable :=
  { theadThs := Option.none
    trs := [[(true, "Seats".data), (true, "Seats".data)],
      [(false, "10".data), (false, "20".data)]] }

/-- A well-formed table with distinct headers and one data row. -/
def okTable : HtmlTable :=
  { theadThs := some ["Course".data, "Seats".data]
    trs := [[(true, "Course".data), (true, "Seats".data)],
      [(false, "CSE".data), (false, "60".data)]] }

/-! ### Dictionary lemmas -/

theorem dictGet?_dictSet_self {α : Type} (d : List (PyStr × α)) (k : PyStr) (v : α) :
    dictGet? (dictSet d k v) k = some v := by
  induction d with
  | nil => simp [dictSet, dictGet?]
  | cons hd tl ih =>
    obtain ⟨k2, v2⟩ := hd
    cases hk : k2 == k <;> simp [dictSet, dictGet?, hk, ih]

theorem beqFalseSymm {α : Type} [BEq α] [LawfulBEq α] (a b : α) (h : (a == b) = false) :
    (b == a) = false := by
  cases he : b == a
  · rfl
  · rw [eq_of_beq he] at h
    simp at h

theorem dictGet?_dictSet_ne {α : Type} (d : List (PyStr × α)) (k k2 : PyStr) (v : α)
    (h : (k2 == k) = false) : dictGet? (dictSet d k v) k2 = dictGet? d k2 := by
  induction d with
  | nil => simp [dictSet, dictGet?, beqFalseSymm k2 k h]
  | cons hd tl ih =>
    obtain ⟨k3, v3⟩ := hd
    cases hk : k3 == k
    · simp [dictSet, dictGet?, hk, ih]
    · have hk3 : (k3 == k2) = false := by
        rw [eq_of_beq hk]
        exact beqFalseSymm k2 k h
      simp [dictSet, dictGet?, hk, hk3]

theorem dictHasKey_dictSet_ne {α : Type} (d : List (PyStr × α)) (k k2 : PyStr) (v : α)
    (h : (k2 == k) = false) : dictHasKey (dictSet d k v) k2 = dictHasKey d k2 := by
  unfold dictHasKey
  rw [dictGet?_dictSet_ne d k k2 v h]

theorem dictKeys_dictSet_mem {α : Type} (d : List (PyStr × α)) (k : PyStr) (v : α)
    (h : dictHasKey d k = true) : dictKeys (dictSet d k v) = dictKeys d := by
  induction d with
  | nil => simp [dictHasKey, dictGet?] at h
  | cons hd tl ih =>
    obtain ⟨k2, v2⟩ := hd
    cases hk : k2 == k
    · have h2 : dictHasKey tl k = true := by
        simpa [dictHasKey, dictGet?, hk] using h
      have h3 := ih h2
      simp only [dictKeys] at h3
      simp [dictSet, dictKeys, hk, h3]
    · simp [dictSet, dictKeys, hk]

/-- The merge loop never changes the key set of the nested mapping. -/
theorem mergeEnhanced_keys (enhanced base : List (PyStr × PyVal)) :
    dictKeys (mergeEnhanced base enhanced) = dictKeys base := by
  induction enhanced generalizing base with
  | nil => rfl
  | cons hd rest ih =>
    obtain ⟨k, v⟩ := hd
    show dictKeys (mergeEnhanced _ rest) = _
    by_cases hc : (truthy v && dictHasKey base k) = true
    · have hkey : dictHasKey base k = true := by
        cases h1 : truthy v <;> cases h2 : dictHasKey base k <;>
          simp [h1, h2] at hc ⊢
      rw [if_pos hc]
      exact (ih (dictSet base k v)).trans (dictKeys_dictSet_mem _ _ _ hkey)
    · rw [if_neg hc]
      exact ih base

/-- Keys not mentioned by the remaining enhanced entries are untouched. -/
theorem mergeEnhanced_get_notin (enhanced : List (PyStr × PyVal)) (k : PyStr)
    (h : ∀ p ∈ enhanced, (p.1 == k) = false) (base : List (PyStr × PyVal)) :
    dictGet? (mergeEnhanced base enhanced) k = dictGet? base k := by
  induction enhanced generalizing base with
  | nil => rfl
  | cons hd rest ih =>
    obtain ⟨k2, v2⟩ := hd
    show dictGet? (mergeEnhanced _ rest) k = _
    have hk2 : (k2 == k) = false := h (k2, v2) (List.mem_cons_self _ _)
    have hrest : ∀ p ∈ rest, (p.1 == k) = false :=
      fun p hp => h p (List.mem_cons_of_mem _ hp)
    by_cases hc : (truthy v2 && dictHasKey base k2) = true
    · rw [if_pos hc, ih hrest (dictSet base k2 v2),
        dictGet?_dictSet_ne base k2 k v2 (beqFalseSymm k2 k hk2)]
    · rw [if_neg hc]
      exact ih hrest base

/-- Core of the whole-field-replacement property. -/
theorem mergeEnhanced_get (enhanced : List (PyStr × PyVal)) (k : PyStr) (v : PyVal)
    (hnd : (dictKeys enhanced).Nodup) (hget : dictGet? enhanced k = some v)
    (htr : truthy v = true) (base : List (PyStr × PyVal))
    (hkey : dictHasKey base k = true) :
    dictGet? (mergeEnhanced base enhanced) k = some v := by
  induction enhanced generalizing base with
  | nil => simp [dictGet?] at hget
  | cons hd rest ih =>
    obtain ⟨k2, v2⟩ := hd
    have hnd2 : k2 ∉ dictKeys rest ∧ (dictKeys rest).Nodup := by
      rw [show dictKeys ((k2, v2) :: rest) = k2 :: dictKeys rest from rfl,
        List.nodup_cons] at hnd
      exact hnd
    show dictGet? (mergeEnhanced _ rest) k = some v
    cases hk : k2 == k
    · have hget2 : dictGet? rest k = some v := by
        simpa [dictGet?, hk] using hget
      by_cases hc : (truthy v2 && dictHasKey base k2) = true
      · have hkey2 : dictHasKey (dictSet base k2 v2) k = true := by
          rw [dictHasKey_dictSet_ne base k2 k v2 (beqFalseSymm k2 k hk)]
          exact hkey
        rw [if_pos hc]
        exact ih hnd2.2 hget2 (dictSet base k2 v2) hkey2
      · rw [if_neg hc]
        exact ih hnd2.2 hget2 base hkey
    · have hkeq : k2 = k := eq_of_beq hk
      subst hkeq
      have hveq : v2 = v := by
        simpa [dictGet?] using hget
      subst hveq
      have hc : (truthy v2 && dictHasKey base k2) = true := by
        rw [htr, hkey]
        rfl
      have hnotin : ∀ p ∈ rest, (p.1 == k2) = false := by
        intro p hp
        cases he : p.1 == k2
        · rfl
        · exact absurd (eq_of_beq he ▸ List.mem_map_of_mem Prod.fst hp) hnd2.1
      rw [if_pos hc, mergeEnhanced_get_notin rest k2 hnotin (dictSet base k2 v2),
        dictGet?_dictSet_self base k2 v2]

/-! ### Claim theorems -/

/-- C2: for every enhanced-data mapping returned by the AI adapter and every
top-level field of the nested mapping, a non-empty (truthy) adapter answer
for that field makes the final record's value for that field equal the
adapter's answer wholesale — full replacement, not a union or deep merge. -/
theorem c2_ai_merge_whole_replacement (r : ExtRecord) (enhanced : List (PyStr × PyVal))
    (k : PyStr) (v : PyVal)
    (hnd : (dictKeys enhanced).Nodup)
    (hget : dictGet? enhanced k = some v)
    (htr : truthy v = true)
    (hkey : dictHasKey r.nested k = true) :
    dictGet? ((aiStep r (.ok enhanced)).nested) k = some v := by
  have hne : enhanced.isEmpty = false := by
    cases enhanced
    · simp [dictGet?] at hget
    · rfl
  simp only [aiStep, hne, Bool.false_eq_true, if_false]
  exact mergeEnhanced_get enhanced k v hnd hget htr r.nested hkey

/-- Witness for C2: a non-empty rule-based `courses_offered` list is entirely
superseded by a non-empty AI answer. -/
theorem c2_witness :
    (dictKeys [("courses_offered".data, PyVal.list [PyVal.str "AI Course".data])]).Nodup ∧
    truthy (PyVal.list [PyVal.str "AI Course".data]) = true ∧
    dictHasKey [("courses_offered".data,
      PyVal.list [PyVal.str "Rule A".data, PyVal.str "Rule B".data])]
      "courses_offered".data = true ∧
    dictGet?
      ((aiStep
        { collegeName := "X".data, lastUpdated := 0,
          nested := [("courses_offered".data,
            PyVal.list [PyVal.str "Rule A".data, PyVal.str "Rule B".data])],
          confidenceScore := .float ⟨7, 10⟩, processingDate := 0 }
        (.ok [("courses_offered".data, PyVal.list [PyVal.str "AI Course".data])])).nested)
      "courses_offered".data = some (PyVal.list [PyVal.str "AI Course".data]) :=
  ⟨by decide, rfl, rfl,
    c2_ai_merge_whole_replacement _ _ _ _ (by decide) rfl rfl rfl⟩

/-- C10: the AI-merge step only overwrites keys already present in the nested
mapping — the key set of the nested mapping is unchanged (so no entry of the
enhanced mapping outside the six rule-based fields, including the adapter's
own `confidence_score`, adds a key) — and the record's `college_name` is left
unchanged. -/
theorem c10_merge_frame (r : ExtRecord) (res : Except Unit (List (PyStr × PyVal))) :
    (aiStep r res).collegeName = r.collegeName ∧
    dictKeys (aiStep r res).nested = dictKeys r.nested := by
  cases res with
  | error e => exact ⟨rfl, rfl⟩
  | ok enhanced =>
    by_cases he : enhanced.isEmpty = true
    · constructor <;> simp [aiStep, he]
    · constructor <;> simp [aiStep, he, mergeEnhanced_keys]

/-- C9: with no AI processor attached, both top-level extraction calls are
deterministic pure functions of `(content, college_name)`: two runs at
different wall-clock times agree on every field except the timestamps, and
the extractor instance carries no mutable state across calls (it is returned
unchanged). -/
theorem c9_deterministic_extraction (self : ExtractorSelf) (content collegeName : PyStr)
    (t1 t2 t3 t4 : Nat) (h : self.aiProcessor = Option.none) :
    (extract_admission_data self content collegeName t1 t2).2 = self ∧
    stripTs (extract_admission_data self content collegeName t1 t2).1 =
      stripTs (extract_admission_data self content collegeName t3 t4).1 ∧
    (extract_placement_data self content collegeName t1 t2).2 = self ∧
    stripTs (extract_placement_data self content collegeName t1 t2).1 =
      stripTs (extract_placement_data self content collegeName t3 t4).1 := by
  refine ⟨rfl, ?_, rfl, ?_⟩ <;>
    simp [extract_admission_data, extract_placement_data, h, stripTs]

/-- Witness for C9: two runs with different timestamps on a concrete input
give the same record after clearing timestamps. -/
theorem c9_witness :
    (({ aiProcessor := Option.none,
        soup := { textOf := fun _ => .ok [], tablesOf := fun _ => .ok [] } } :
        ExtractorSelf).aiProcessor = Option.none) ∧
    stripTs (extract_admission_data
      { aiProcessor := Option.none,
        soup := { textOf := fun _ => .ok [], tablesOf := fun _ => .ok [] } }
      "total seats: 120".data "C".data 11 12).1 =
    stripTs (extract_admission_data
      { aiProcessor := Option.none,
        soup := { textOf := fun _ => .ok [], tablesOf := fun _ => .ok [] } }
      "total seats: 120".data "C".data 99 100).1 :=
  ⟨rfl, (c9_deterministic_extraction _ "total seats: 120".data "C".data 11 12 99 100
    rfl).2.1⟩

/-- C8: extraction degrades instead of failing — a table-parsing failure
yields an empty table list from `extract_tables`, and on a document where
every sub-extractor finds nothing both top-level calls return a record whose
leaves are all none/empty with the default confidence score 0.7. -/
theorem c8_graceful_degradation :
    extract_tables (Except.error ()) = [] ∧
    (extract_admission_data noAiSelf [] "Test College".data 0 0).1 =
      { collegeName := "Test College".data
        lastUpdated := 0
        nested := [("application_deadlines".data, .list []),
          ("courses_offered".data, .list []),
          ("seats_available".data,
            .dict [("total".data, .none), ("category_wise".data, .dict [])]),
          ("fee_structure".data,
            .dict [("course_wise".data, .dict []), ("payment_schedule".data, .none)]),
          ("hostel_facilities".data,
            .dict [("boys_hostel".data, .none), ("girls_hostel".data, .none),
              ("hostel_fee".data, .none)]),
          ("eligibility_criteria".data,
            .dict [("academic_requirements".data, .none),
              ("entrance_exams".data, .list []), ("cutoff_scores".data, .dict [])])]
        confidenceScore := .float ⟨7, 10⟩
        processingDate := 0 } ∧
    (extract_placement_data noAiSelf [] "Test College".data 0 0).1 =
      { collegeName := "Test College".data
        lastUpdated := 0
        nested := [("statistics".data,
            .dict [("avg_package".data, .none), ("highest_package".data, .none),
              ("median_package".data, .none), ("students_placed_count".data, .none),
              ("total_students".data, .none), ("placement_percentage".data, .none)]),
          ("recruiters".data,
            .dict [("top_companies".data, .list []),
              ("total_companies_visited".data, .none)]),
          ("historical_data".data, .dict [("year_wise".data, .dict [])]),
          ("alternative_paths".data,
            .dict [("higher_studies".data, .none), ("abroad_studies".data, .none),
              ("startups_founded".data, .none)]),
          ("internships".data,
            .dict [("count".data, .none), ("companies".data, .list []),
              ("percentage".data, .none)]),
          ("recruitment_types".data,
            .dict [("on_campus".data, .none), ("off_campus".data, .none),
              ("pool_campus".data, .none)])]
        confidenceScore := .float ⟨7, 10⟩
        processingDate := 0 } :=
  ⟨rfl, rfl, rfl⟩

theorem hostelFlag_some (pats : List RE) (text v : PyStr)
    (h : firstHostelMatch pats text = some v) :
    hostelFlag pats text =
      .bool (["available", "separate", "dedicated"].any (fun w => lowerStr v == w.data)) := by
  unfold hostelFlag
  rw [h]
  cases hc : ["available", "separate", "dedicated"].any (fun w => lowerStr v == w.data) <;>
    simp [hc]

theorem hostelFlag_none (pats : List RE) (text : PyStr)
    (h : firstHostelMatch pats text = Option.none) :
    hostelFlag pats text = .none := by
  unfold hostelFlag
  rw [h]

theorem extractHostelInfo_boys (text : PyStr) :
    (extractHostelInfo text).boysHostel =
      hostelFallback (hostelFlag boysPatterns text) "boys" text := rfl

theorem extractHostelInfo_girls (text : PyStr) :
    (extractHostelInfo text).girlsHostel =
      hostelFallback (hostelFlag girlsPatterns text) "girls" text := rfl

/-- C6: for the boys-hostel (resp. girls-hostel) pattern loop, a first match
capturing `available` sets the availability flag to `true` and one capturing
`not available` sets it to `false`; when no explicit pattern matches, a bare
`boys hostel` (resp. `girls hostel`) mention makes the flag `true`. -/
theorem c6_hostel_availability (text v : PyStr) :
    (firstHostelMatch boysPatterns text = some v →
      (lowerStr v = "available".data →
        (extractHostelInfo text).boysHostel = PyVal.bool true) ∧
      (lowerStr v = "not available".data →
        (extractHostelInfo text).boysHostel = PyVal.bool false)) ∧
    (firstHostelMatch boysPatterns text = Option.none →
      reTest (bareHostelPat "boys") text = true →
      (extractHostelInfo text).boysHostel = PyVal.bool true) ∧
    (firstHostelMatch girlsPatterns text = some v →
      (lowerStr v = "available".data →
        (extractHostelInfo text).girlsHostel = PyVal.bool true) ∧
      (lowerStr v = "not available".data →
        (extractHostelInfo text).girlsHostel = PyVal.bool false)) ∧
    (firstHostelMatch girlsPatterns text = Option.none →
      reTest (bareHostelPat "girls") text = true →
      (extractHostelInfo text).girlsHostel = PyVal.bool true) := by
  refine ⟨fun h => ⟨fun hv => ?_, fun hv => ?_⟩, fun h hb => ?_,
    fun h => ⟨fun hv => ?_, fun hv => ?_⟩, fun h hb => ?_⟩
  · rw [extractHostelInfo_boys, hostelFlag_some _ _ _ h, hv]
    rfl
  · rw [extractHostelInfo_boys, hostelFlag_some _ _ _ h, hv]
    rfl
  · rw [extractHostelInfo_boys, hostelFlag_none _ _ h]
    simp [hostelFallback, hb]
  · rw [extractHostelInfo_girls, hostelFlag_some _ _ _ h, hv]
    rfl
  · rw [extractHostelInfo_girls, hostelFlag_some _ _ _ h, hv]
    rfl
  · rw [extractHostelInfo_girls, hostelFlag_none _ _ h]
    simp [hostelFallback, hb]

/-- Witness for C6: the three behaviours on concrete sentences. -/
theorem c6_witness :
    firstHostelMatch boysPatterns "boys hostel is available".data = some "available".data ∧
    (extractHostelInfo "boys hostel is available".data).boysHostel = PyVal.bool true ∧
    firstHostelMatch boysPatterns "boys hostel is not available".data =
      some "not available".data ∧
    (extractHostelInfo "boys hostel is not available".data).boysHostel = PyVal.bool false ∧
    firstHostelMatch boysPatterns "there is a boys hostel here".data = Option.none ∧
    (extractHostelInfo "there is a boys hostel here".data).boysHostel = PyVal.bool true :=
  ⟨rfl,
    ((c6_hostel_availability "boys hostel is available".data "available".data).1 rfl).1 rfl,
    rfl,
    ((c6_hostel_availability "boys hostel is not available".data
      "not available".data).1 rfl).2 rfl,
    rfl,
    (c6_hostel_availability "there is a boys hostel here".data []).2.1 rfl rfl⟩

/-- C7: a date mention whose context window contains no deadline keyword
never yields a text-derived `application_deadlines` entry: no entry carries
both its date string and its context. -/
theorem c7_deadlines_need_keyword (text : PyStr) (m : DateMention) (e : DeadlineInfo)
    (hm : m ∈ extract_dates text)
    (hkw : datesDeadlinesKw.any (fun kw => containsSub kw (lowerStr m.context)) = false)
    (he : e ∈ deadlinesFromText text) :
    ¬(e.dateStr = m.dateStr ∧ e.context = m.context) := by
  rintro ⟨hds, hctx⟩
  clear hm hds
  unfold deadlinesFromText at he
  obtain ⟨d, hd, hpred⟩ := List.mem_filterMap.mp he
  by_cases hc : datesDeadlinesKw.any (fun kw => containsSub kw (lowerStr d.context)) = true
  · rw [if_pos hc] at hpred
    have he2 : e = ⟨d.dateStr, d.context, determineDeadlineType (lowerStr d.context)⟩ :=
      (Option.some.inj hpred).symm
    rw [he2] at hctx
    rw [show (⟨d.dateStr, d.context, determineDeadlineType (lowerStr d.context)⟩ :
      DeadlineInfo).context = d.context from rfl] at hctx
    rw [hctx] at hc
    rw [hc] at hkw
    cases hkw
  · rw [if_neg hc] at hpred
    cases hpred

/-- Witness for C7: on `t7` the second mention (`01/02/2019`) has no deadline
keyword in its context, the deadline list is non-empty, and no entry carries
that mention's date string and context. -/
theorem c7_witness :
    (extract_dates t7).getD 1 ⟨[], [], 0, []⟩ ∈ extract_dates t7 ∧
    datesDeadlinesKw.any (fun kw =>
      containsSub kw (lowerStr ((extract_dates t7).getD 1 ⟨[], [], 0, []⟩).context)) = false ∧
    (deadlinesFromText t7).getD 0 ⟨[], [], []⟩ ∈ deadlinesFromText t7 ∧
    ¬(((deadlinesFromText t7).getD 0 ⟨[], [], []⟩).dateStr =
        ((extract_dates t7).getD 1 ⟨[], [], 0, []⟩).dateStr ∧
      ((deadlinesFromText t7).getD 0 ⟨[], [], []⟩).context =
        ((extract_dates t7).getD 1 ⟨[], [], 0, []⟩).context) :=
  ⟨by decide, by decide, by decide,
    c7_deadlines_need_keyword t7 _ _ (by decide) (by decide) (by decide)⟩

theorem fillStatFromRow_float (pats : List SrcPattern) (q : PyRat) (r : PyStr) :
    fillStatFromRow pats (.float q) r = .float q := rfl

theorem statTableStep_avg (st : PlacementStats) (r : PyStr) :
    (statTableStep st r).avgPackage = fillStatFromRow avgPackagePatterns st.avgPackage r := rfl

theorem statsRowsLoop_avg_float (rows : List (List PyStr)) (st : PlacementStats) (q : PyRat)
    (h : st.avgPackage = .float q) : (statsRowsLoop st rows).avgPackage = .float q := by
  induction rows generalizing st with
  | nil => exact h
  | cons row rest ih =>
    apply ih
    rw [statTableStep_avg, h, fillStatFromRow_float]

theorem statsFromTables_avg_float (tables : List ExtractedTable) (st : PlacementStats)
    (q : PyRat) (h : st.avgPackage = .float q) :
    (statsFromTables st tables).avgPackage = .float q := by
  induction tables generalizing st with
  | nil => exact h
  | cons t rest ih =>
    show (statsFromTables _ rest).avgPackage = _
    apply ih
    split
    · exact statsRowsLoop_avg_float _ _ _ h
    · exact h

theorem addDerived_avg (st : PlacementStats) :
    (addDerivedPercentage st).avgPackage = st.avgPackage := by
  unfold addDerivedPercentage
  (repeat' split) <;> rfl

theorem statFromText_cons_some (p : SrcPattern) (rest : List SrcPattern) (text : PyStr)
    (m : MatchRes) (h : reSearch p.re text = some m) :
    statFromText (p :: rest) text =
      (match parseFloat (stripCommas (groupStr m 1)) with
       | some fv =>
         if isLakhPattern p then .float fv
         else if fv.blt (pyInt 100) then .float fv else .float (fv.div (pyInt 100000))
       | Option.none => .str (groupStr m 1)) := by
  unfold statFromText
  rw [h]

theorem statFromText_cons_none (p : SrcPattern) (rest : List SrcPattern) (text : PyStr)
    (h : reSearch p.re text = Option.none) :
    statFromText (p :: rest) text = statFromText rest text := by
  conv_lhs => unfold statFromText
  rw [h]

/-- C1 (amended): the magnitude disambiguation only governs values captured
by the second, comma-grouped `avg_package` pattern.  The first pattern's
source carries the optional `lakh|lac|lacs` suffix, so `"lakh" in pattern`
holds whenever it matches and the captured value is stored unchanged
regardless of magnitude; only when the first pattern fails and the second
matches is a value below 100 stored unchanged and a value at or above 100
divided by 100000. -/
theorem c1_package_magnitude (text : PyStr) (tables : List ExtractedTable)
    (m : MatchRes) (q : PyRat) :
    (reSearch avgSrcP1.re text = some m →
      parseFloat (stripCommas (groupStr m 1)) = some q →
      (extractPlacementStatistics text tables).avgPackage = PyVal.float q) ∧
    (reSearch avgSrcP1.re text = Option.none →
      reSearch avgSrcP2.re text = some m →
      parseFloat (stripCommas (groupStr m 1)) = some q →
      (extractPlacementStatistics text tables).avgPackage =
        PyVal.float (if q.blt (pyInt 100) then q else q.div (pyInt 100000))) := by
  have hstep : ∀ v, statFromText avgPackagePatterns text = PyVal.float v →
      (extractPlacementStatistics text tables).avgPackage = PyVal.float v := by
    intro v hv
    show (addDerivedPercentage (statsFromTables (statsFromText text) tables)).avgPackage = _
    rw [addDerived_avg]
    exact statsFromTables_avg_float tables _ v hv
  constructor
  · intro h1 h2
    apply hstep
    rw [show avgPackagePatterns = [avgSrcP1, avgSrcP2] from rfl,
      statFromText_cons_some avgSrcP1 _ text m h1, h2]
    rw [show isLakhPattern avgSrcP1 = true from by decide]
    rfl
  · intro h0 h1 h2
    apply hstep
    rw [show avgPackagePatterns = [avgSrcP1, avgSrcP2] from rfl,
      statFromText_cons_none avgSrcP1 _ text h0,
      statFromText_cons_some avgSrcP2 [] text m h1, h2]
    rw [show isLakhPattern avgSrcP2 = false from by decide]
    cases hb : q.blt (pyInt 100) <;> simp [hb]

/-- Counterexample for C1 as stated: in `"average package is 850000"` the
number is matched without any `lakh`/`lac` literal in the text, yet the code
stores `850000.0` as-is (the claim demands `8.5`), because the first pattern
matches and its *source string* contains `lakh|lac|lacs`. -/
theorem c1_counterexample :
    (extractPlacementStatistics "average package is 850000".data []).avgPackage =
      PyVal.float ⟨850000, 1⟩ ∧
    ¬((extractPlacementStatistics "average package is 850000".data []).avgPackage =
      PyVal.float ⟨17, 2⟩) := by
  refine ⟨rfl, fun h => ?_⟩
  have h2 : PyVal.float ⟨850000, 1⟩ = PyVal.float ⟨17, 2⟩ :=
    (show (extractPlacementStatistics "average package is 850000".data []).avgPackage =
      PyVal.float ⟨850000, 1⟩ from rfl).symm.trans h
  injection h2 with h3
  exact absurd h3 (by decide)

/-- Witness for C1: both branches of the amended heuristic on concrete
sentences — the first pattern stores `850000` unchanged, and on the
`"of"`-phrased sentence only the second pattern matches, dividing by
100000. -/
theorem c1_witness :
    reSearch avgSrcP1.re "average package is 850000".data =
      some ⟨0, "average package is 850000".data, [(1, "850000".data)]⟩ ∧
    (extractPlacementStatistics "average package is 850000".data []).avgPackage =
      PyVal.float ⟨850000, 1⟩ ∧
    reSearch avgSrcP1.re "average package of 850000".data = Option.none ∧
    (extractPlacementStatistics "average package of 850000".data []).avgPackage =
      PyVal.float ⟨17, 2⟩ :=
  ⟨rfl,
    (c1_package_magnitude "average package is 850000".data []
      ⟨0, "average package is 850000".data, [(1, "850000".data)]⟩ ⟨850000, 1⟩).1 rfl rfl,
    rfl,
    ((c1_package_magnitude "average package of 850000".data []
      ⟨0, "average package of 850000".data, [(1, "850000".data)]⟩ ⟨850000, 1⟩).2 rfl rfl
      rfl).trans rfl⟩

/-- C5 (amended): when no explicit percentage phrase matched and both the
placed count and the total were extracted as truthy (non-zero) numbers, the
percentage is derived as `100 * placed/total` rounded to two decimals. -/
theorem c5_percentage_derivation (text : PyStr) (tables : List ExtractedTable)
    (c t : PyRat)
    (hpp : (statsFromTables (statsFromText text) tables).placementPercentage = PyVal.none)
    (hc : (statsFromTables (statsFromText text) tables).studentsPlacedCount = PyVal.float c)
    (hcz : c.isZero = false)
    (ht : (statsFromTables (statsFromText text) tables).totalStudents = PyVal.float t)
    (htz : t.isZero = false) :
    (extractPlacementStatistics text tables).placementPercentage =
      PyVal.float (round2 ((c.div t).mul (pyInt 100))) := by
  show (addDerivedPercentage (statsFromTables (statsFromText text) tables)).placementPercentage
      = _
  unfold addDerivedPercentage
  rw [hpp, hc, ht]
  simp [truthy, pyFloatOf, hcz, htz]

/-- Counterexample for C5 as stated: `"0 students were placed. total
students: 200"` extracts both statistics (count `0.0`, total `0.002`), no
percentage phrase matches, yet no percentage is derived, because Python
truthiness treats the extracted `0.0` as absent — whereas the claim demands
`round(100 * 0/0.002, 2) = 0.0`. -/
theorem c5_counterexample :
    (extractPlacementStatistics "0 students were placed. total students: 200".data
      []).studentsPlacedCount = PyVal.float ⟨0, 1⟩ ∧
    (extractPlacementStatistics "0 students were placed. total students: 200".data
      []).totalStudents = PyVal.float ⟨1, 500⟩ ∧
    (extractPlacementStatistics "0 students were placed. total students: 200".data
      []).placementPercentage = PyVal.none ∧
    ¬((extractPlacementStatistics "0 students were placed. total students: 200".data
      []).placementPercentage =
        PyVal.float (round2 (((PyRat.mk 0 1).div ⟨1, 500⟩).mul (pyInt 100)))) := by
  refine ⟨rfl, rfl, rfl, fun h => ?_⟩
  have h2 : PyVal.none = PyVal.float (round2 (((PyRat.mk 0 1).div ⟨1, 500⟩).mul (pyInt 100))) :=
    (show (extractPlacementStatistics "0 students were placed. total students: 200".data
      []).placementPercentage = PyVal.none from rfl).symm.trans h
  exact PyVal.noConfusion h2

/-- Witness for C5: with `students_placed_count = 180` and
`total_students = 200` from a summary table and no percentage phrase, the
derived percentage is 90.0. -/
theorem c5_witness :
    (statsFromTables (statsFromText []) [statTable180]).placementPercentage = PyVal.none ∧
    (statsFromTables (statsFromText []) [statTable180]).studentsPlacedCount =
      PyVal.float ⟨180, 1⟩ ∧
    (statsFromTables (statsFromText []) [statTable180]).totalStudents =
      PyVal.float ⟨200, 1⟩ ∧
    (extractPlacementStatistics [] [statTable180]).placementPercentage =
      PyVal.float ⟨90, 1⟩ :=
  ⟨rfl, rfl, rfl,
    (c5_percentage_derivation [] [statTable180] ⟨180, 1⟩ ⟨200, 1⟩ rfl rfl rfl rfl rfl).trans
      rfl⟩

/-- C4 (amended): when no total-seats pattern matches the text and the
category mapping has at least one numeric value, the total is derived as the
sum of the numeric category values — non-numeric values are ignored, they do
not cancel the derivation. -/
theorem c4_seats_sum (text : PyStr) (tables : List ExtractedTable)
    (h : seatsTotalFromText text = PyVal.none)
    (hcw : (seatsCategoryWise tables).isEmpty = false)
    (hnum : (((seatsCategoryWise tables).map Prod.snd).filter isNum).isEmpty = false) :
    (extract_seats text tables).total =
      sumNums (((seatsCategoryWise tables).map Prod.snd).filter isNum) ∧
    (extract_seats text tables).categoryWise = seatsCategoryWise tables := by
  unfold extract_seats
  rw [h]
  simp [hcw, hnum]

/-- Counterexample for C4 as stated: with `category_wise = {General: 50,
OBC: "NA"}` and no total pattern in the (empty) text, the claim says the
derivation is skipped (total stays none), but the code sums the numeric
values and sets `total = 50`. -/
theorem c4_counterexample :
    (extract_seats [] [seatTableBad]).total = PyVal.int 50 ∧
    dictGet? (extract_seats [] [seatTableBad]).categoryWise "OBC".data =
      some (PyVal.str "NA".data) ∧
    ¬((extract_seats [] [seatTableBad]).total = PyVal.none) := by
  refine ⟨rfl, rfl, fun h => ?_⟩
  have h2 : PyVal.int 50 = PyVal.none :=
    (show (extract_seats [] [seatTableBad]).total = PyVal.int 50 from rfl).symm.trans h
  exact PyVal.noConfusion h2

/-- Witness for C4: `{General: 50, OBC: 27, SC: 15, ST: 8}` with no total
pattern in the text derives `total = 100`. -/
theorem c4_witness :
    seatsTotalFromText [] = PyVal.none ∧
    (seatsCategoryWise [seatTable4]).isEmpty = false ∧
    (extract_seats [] [seatTable4]).total = PyVal.int 100 :=
  ⟨rfl, rfl, (c4_seats_sum [] [seatTable4] rfl rfl rfl).1.trans rfl⟩

theorem natDigits_lt (n : Nat) (h : n < 10) : natDigits n = [Char.ofNat (48 + n)] := by
  rw [natDigits, dif_pos h]

theorem natDigits_ge (n : Nat) (h : ¬n < 10) :
    natDigits n = natDigits (n / 10) ++ [Char.ofNat (48 + n % 10)] := by
  conv_lhs => rw [natDigits]
  rw [dif_neg h]

theorem natDigits_ne_nil (n : Nat) : natDigits n ≠ [] := by
  unfold natDigits
  split
  · simp
  · simp

theorem digitCharInj : ∀ m : Nat, m < 10 → ∀ n : Nat, n < 10 →
    Char.ofNat (48 + m) = Char.ofNat (48 + n) → m = n := by decide

theorem natDigits_inj : ∀ m n : Nat, natDigits m = natDigits n → m = n := by
  intro m
  induction m using Nat.strong_induction_on with
  | _ m ih =>
    intro n h
    by_cases hm : m < 10 <;> by_cases hn : n < 10
    · rw [natDigits_lt m hm, natDigits_lt n hn] at h
      injection h with h1 _
      exact digitCharInj m hm n hn h1
    · rw [natDigits_lt m hm, natDigits_ge n hn] at h
      have hlen := congrArg List.length h
      rw [List.length_append] at hlen
      simp only [List.length_cons, List.length_nil] at hlen
      have hz : (natDigits (n / 10)).length = 0 := by omega
      exact absurd (List.length_eq_zero.mp hz) (natDigits_ne_nil (n / 10))
    · rw [natDigits_ge m hm, natDigits_lt n hn] at h
      have hlen := congrArg List.length h
      rw [List.length_append] at hlen
      simp only [List.length_cons, List.length_nil] at hlen
      have hz : (natDigits (m / 10)).length = 0 := by omega
      exact absurd (List.length_eq_zero.mp hz) (natDigits_ne_nil (m / 10))
    · rw [natDigits_ge m hm, natDigits_ge n hn] at h
      have h2 := List.append_inj' h rfl
      have hd : m / 10 = n / 10 := ih (m / 10) (by omega) (n / 10) h2.1
      have hc : Char.ofNat (48 + m % 10) = Char.ofNat (48 + n % 10) := by
        injection h2.2 with hc _
      have hm2 : m % 10 = n % 10 :=
        digitCharInj (m % 10) (Nat.mod_lt _ (by omega)) (n % 10) (Nat.mod_lt _ (by omega)) hc
      omega

theorem dictSet_not_has {α : Type} (d : List (PyStr × α)) (k : PyStr) (v : α)
    (h : dictHasKey d k = false) : dictSet d k v = d ++ [(k, v)] := by
  induction d with
  | nil => rfl
  | cons hd tl ih =>
    obtain ⟨k2, v2⟩ := hd
    have hk : (k2 == k) = false := by
      cases hk : k2 == k
      · rfl
      · simp [dictHasKey, dictGet?, hk] at h
    simp only [dictSet, hk, if_false, Bool.false_eq_true, List.cons_append]
    rw [ih (by simpa [dictHasKey, dictGet?, hk] using h)]

theorem dictHasKey_append_single {α : Type} (d : List (PyStr × α)) (k : PyStr) (c : α)
    (k2 : PyStr) :
    dictHasKey (d ++ [(k, c)]) k2 = (dictHasKey d k2 || (k == k2)) := by
  induction d with
  | nil =>
    simp only [List.nil_append, dictHasKey, dictGet?]
    cases hk : k == k2 <;> simp [hk]
  | cons hd tl ih =>
    obtain ⟨k3, v3⟩ := hd
    cases hk : k3 == k2 <;> simp [dictHasKey, dictGet?, hk] <;>
      simpa [dictHasKey] using ih

theorem keyFor_ge (hdrs : List PyStr) (i : Nat) (h : hdrs.length ≤ i) :
    keyFor hdrs i = "column_".data ++ natDigits (i + 1) := by
  unfold keyFor
  rw [List.getElem?_eq_none h]

theorem rowDictGo_zip (hdrs : List PyStr) : ∀ (cells : List PyStr) (i : Nat)
    (acc : List (PyStr × PyStr)),
    (hdrs.drop i).Nodup →
    cells.length = (hdrs.drop i).length →
    (∀ k ∈ hdrs.drop i, dictHasKey acc k = false) →
    rowDictGo hdrs i acc cells = acc ++ (hdrs.drop i).zip cells := by
  intro cells
  induction cells with
  | nil =>
    intro i acc _ hlen _
    rw [List.length_eq_zero.mp hlen.symm]
    simp [rowDictGo]
  | cons c cs ih =>
    intro i acc hnd hlen hfresh
    have hi : i < hdrs.length := by
      by_contra hge
      rw [List.drop_eq_nil_of_le (by omega)] at hlen
      simp at hlen
    have hdrop : hdrs.drop i = hdrs.get ⟨i, hi⟩ :: hdrs.drop (i + 1) :=
      List.drop_eq_getElem_cons hi
    have hkey : keyFor hdrs i = hdrs.get ⟨i, hi⟩ := by
      unfold keyFor
      rw [List.getElem?_eq_getElem hi]
      rfl
    rw [hdrop] at hnd hlen hfresh ⊢
    rw [List.nodup_cons] at hnd
    show rowDictGo hdrs (i + 1) (dictSet acc (keyFor hdrs i) c) cs = _
    rw [hkey, dictSet_not_has acc _ c (hfresh _ (List.mem_cons_self _ _))]
    have hfresh2 : ∀ k ∈ hdrs.drop (i + 1),
        dictHasKey (acc ++ [(hdrs.get ⟨i, hi⟩, c)]) k = false := by
      intro k hk
      rw [dictHasKey_append_single]
      have h1 : dictHasKey acc k = false := hfresh k (List.mem_cons_of_mem _ hk)
      have h2 : (hdrs.get ⟨i, hi⟩ == k) = false := by
        cases he : hdrs.get ⟨i, hi⟩ == k
        · rfl
        · exact absurd (eq_of_beq he ▸ hk) hnd.1
      rw [h1, h2]
      rfl
    rw [ih (i + 1) (acc ++ [(hdrs.get ⟨i, hi⟩, c)]) hnd.2 (by
      simp only [List.length_cons, List.length_drop] at hlen ⊢
      omega) hfresh2]
    rw [List.append_assoc]
    rfl

theorem rowDict_zip (hdrs cells : List PyStr) (hnd : hdrs.Nodup)
    (hlen : cells.length = hdrs.length) :
    rowDict hdrs cells = hdrs.zip cells := by
  have h := rowDictGo_zip hdrs cells 0 [] (by simpa) (by simpa) (fun k _ => rfl)
  simpa [rowDict] using h

theorem rowDictGo_skip (hdrs : List PyStr) (k : PyStr) : ∀ (cells : List PyStr) (j : Nat)
    (acc : List (PyStr × PyStr)),
    (∀ d2, d2 < cells.length → keyFor hdrs (j + d2) ≠ k) →
    dictGet? (rowDictGo hdrs j acc cells) k = dictGet? acc k := by
  intro cells
  induction cells with
  | nil => intro j acc _; rfl
  | cons c cs ih =>
    intro j acc h
    show dictGet? (rowDictGo hdrs (j + 1) (dictSet acc (keyFor hdrs j) c) cs) k = _
    rw [ih (j + 1) _ (fun d2 hd2 => by
      have h2 := h (d2 + 1) (by simpa using Nat.succ_lt_succ hd2)
      rwa [show j + (d2 + 1) = j + 1 + d2 from by omega] at h2)]
    have hne : (k == keyFor hdrs j) = false := by
      cases he : k == keyFor hdrs j
      · rfl
      · exfalso
        have h0 := h 0 (by simp)
        rw [Nat.add_zero] at h0
        exact h0 (eq_of_beq he).symm
    rw [dictGet?_dictSet_ne acc (keyFor hdrs j) k c hne]

theorem rowDictGo_append (hdrs : List PyStr) : ∀ (xs ys : List PyStr) (j : Nat)
    (acc : List (PyStr × PyStr)),
    rowDictGo hdrs j acc (xs ++ ys) =
      rowDictGo hdrs (j + xs.length) (rowDictGo hdrs j acc xs) ys := by
  intro xs
  induction xs with
  | nil => intro ys j acc; simp [rowDictGo]
  | cons x xs2 ih =>
    intro ys j acc
    show rowDictGo hdrs (j + 1) _ (xs2 ++ ys) = _
    rw [ih ys (j + 1) (dictSet acc (keyFor hdrs j) x),
      show j + 1 + xs2.length = j + (xs2.length + 1) from by omega]
    rfl

theorem rowDict_surplus (hdrs cells : List PyStr) (i : Nat)
    (hge : hdrs.length ≤ i) (hlt : i < cells.length) :
    dictGet? (rowDict hdrs cells) ("column_".data ++ natDigits (i + 1)) =
      some (cells.getD i []) := by
  have hsplit : cells = cells.take i ++ cells.get ⟨i, hlt⟩ :: cells.drop (i + 1) := by
    conv_lhs => rw [← List.take_append_drop i cells]
    rw [List.drop_eq_getElem_cons hlt]
    rfl
  have hgd : cells.getD i [] = cells.get ⟨i, hlt⟩ := by
    rw [List.getD_eq_getElem?_getD, List.getElem?_eq_getElem hlt]
    rfl
  rw [hgd]
  unfold rowDict
  conv_lhs => rw [hsplit]
  rw [rowDictGo_append hdrs (cells.take i) _ 0 []]
  have htk : (cells.take i).length = i := by
    rw [List.length_take]
    omega
  rw [htk]
  show dictGet? (rowDictGo hdrs ((0 : Nat) + i + 1)
      (dictSet (rowDictGo hdrs 0 [] (cells.take i)) (keyFor hdrs ((0 : Nat) + i))
        (cells.get ⟨i, hlt⟩)) (cells.drop (i + 1))) _ = _
  rw [rowDictGo_skip hdrs _ (cells.drop (i + 1)) ((0 : Nat) + i + 1) _ (fun d2 _ => by
    rw [keyFor_ge hdrs ((0 : Nat) + i + 1 + d2) (by omega)]
    intro hcol
    have := natDigits_inj _ _ (List.append_cancel_left hcol)
    omega)]
  rw [show (0 : Nat) + i = i from by omega, keyFor_ge hdrs i hge]
  exact dictGet?_dictSet_self _ _ _

theorem extract_tables_ok_mem (doc : List HtmlTable) (tb : ExtractedTable)
    (h : tb ∈ extract_tables (.ok doc)) :
    (tb.headers ≠ [] ∧ tb.rows = tb.rawRows.map (rowDict tb.headers) ∧ tb.rawRows ≠ []) ∨
    (tb.headers = [] ∧ tb.rows = [] ∧ tb.rawRows ≠ []) := by
  unfold extract_tables extractTablesOk at h
  obtain ⟨ht, _, hbuild⟩ := List.mem_filterMap.mp h
  unfold buildTable at hbuild
  by_cases h1 : (!(deriveHeaders ht).isEmpty && !(dataRows ht (deriveHeaders ht)).isEmpty)
      = true
  · rw [if_pos h1] at hbuild
    have htb := (Option.some.inj hbuild).symm
    subst htb
    have hh : (deriveHeaders ht).isEmpty = false := by
      cases hh2 : (deriveHeaders ht).isEmpty <;> simp [hh2] at h1 ⊢
    have hr : (dataRows ht (deriveHeaders ht)).isEmpty = false := by
      cases hh2 : (dataRows ht (deriveHeaders ht)).isEmpty <;> simp [hh2] at h1 ⊢
    exact Or.inl ⟨by simpa using hh, rfl, by simpa using hr⟩
  · rw [if_neg h1] at hbuild
    by_cases h2 : (!(dataRows ht (deriveHeaders ht)).isEmpty) = true
    · rw [if_pos h2] at hbuild
      have htb := (Option.some.inj hbuild).symm
      subst htb
      exact Or.inr ⟨rfl, rfl, by simpa using h2⟩
    · rw [if_neg h2] at hbuild
      cases hbuild

/-- C3 (amended): for every extracted table, the dictionary rows are exactly
the raw rows through `rowDict`; with *pairwise-distinct* headers a row of
exactly N cells gives the mapping with the N headers in order, each to the
cell at the same index (with duplicate headers the Python dict collapses
them); a surplus cell at index `i` is stored under `column_{i+1}`; and a
table emitted without headers has an empty rows list and non-empty raw
rows. -/
theorem c3_table_structuring (doc : List HtmlTable) (tb : ExtractedTable)
    (h : tb ∈ extract_tables (.ok doc)) :
    (tb.headers ≠ [] → tb.rows = tb.rawRows.map (rowDict tb.headers)) ∧
    (tb.headers = [] → tb.rows = [] ∧ tb.rawRows ≠ []) ∧
    (∀ r : List PyStr, tb.headers.Nodup → r.length = tb.headers.length →
      rowDict tb.headers r = tb.headers.zip r) ∧
    (∀ (r : List PyStr) (i : Nat), tb.headers.length ≤ i → i < r.length →
      dictGet? (rowDict tb.headers r) ("column_".data ++ natDigits (i + 1)) =
        some (r.getD i [])) := by
  rcases extract_tables_ok_mem doc tb h with ⟨hne, hrows, _⟩ | ⟨heq, hrows, hraw⟩
  · exact ⟨fun _ => hrows, fun hh => absurd hh (by simp [hne]),
      fun r hnd hlen => rowDict_zip tb.headers r hnd hlen,
      fun r i hge hlt => rowDict_surplus tb.headers r i hge hlt⟩
  · exact ⟨fun hh => absurd heq hh, fun _ => ⟨hrows, hraw⟩,
      fun r hnd hlen => rowDict_zip tb.headers r hnd hlen,
      fun r i hge hlt => rowDict_surplus tb.headers r i hge hlt⟩

/-- Counterexample for C3 as stated: with duplicate headers
`["Seats", "Seats"]` (N = 2) and a row of exactly 2 cells, the rows entry is
`{"Seats": "20"}` with 1 key, not 2. -/
theorem c3_counterexample :
    extract_tables (.ok [dupHdrTable]) =
      [⟨["Seats".data, "Seats".data], [[("Seats".data, "20".data)]],
        [["10".data, "20".data]]⟩] ∧
    ((extract_tables (.ok [dupHdrTable])).getD 0 ⟨[], [], []⟩).headers.length = 2 ∧
    ((((extract_tables (.ok [dupHdrTable])).getD 0 ⟨[], [], []⟩).rawRows.getD 0 []).length)
      = 2 ∧
    ¬(((((extract_tables (.ok [dupHdrTable])).getD 0 ⟨[], [], []⟩).rows.getD 0 []).length)
      = 2) :=
  ⟨rfl, rfl, rfl, by decide⟩

/-- Witness for C3: a distinct-header table gives the zip mapping, and a
surplus cell lands under its synthetic column key. -/
theorem c3_witness :
    (⟨["Course".data, "Seats".data],
      [[("Course".data, "CSE".data), ("Seats".data, "60".data)]],
      [["CSE".data, "60".data]]⟩ : ExtractedTable) ∈ extract_tables (.ok [okTable]) ∧
    rowDict ["Course".data, "Seats".data] ["CSE".data, "60".data] =
      (["Course".data, "Seats".data]).zip ["CSE".data, "60".data] ∧
    dictGet? (rowDict ["Course".data, "Seats".data] ["CSE".data, "60".data, "extra".data])
      ("column_".data ++ natDigits 3) = some "extra".data :=
  ⟨by decide,
    (c3_table_structuring [okTable]
      ⟨["Course".data, "Seats".data],
        [[("Course".data, "CSE".data), ("Seats".data, "60".data)]],
        [["CSE".data, "60".data]]⟩ (by decide)).2.2.1 ["CSE".data, "60".data]
      (by decide) rfl,
    (c3_table_structuring [okTable]
      ⟨["Course".data, "Seats".data],
        [[("Course".data, "CSE".data), ("Seats".data, "60".data)]],
        [["CSE".data, "60".data]]⟩ (by decide)).2.2.2
      ["CSE".data, "60".data, "extra".data] 2 (by decide) (by decide)⟩

end Crawl
